import Mathlib

/-!
Verification of the resumable cross-chain transfer orchestrator
(`transferF` in `cmd/keycmd`, together with its flag set).

The command is embedded shallowly: every interaction with an external
collaborator (prompts, network resolver, key store, ledger device, wallet
construction, transaction build/sign/submit) is an input supplied by an
`Oracle`; the embedding `transferF` mirrors the Go control flow statement by
statement and returns the command's result together with the list of
observable events (prompts, displayed summaries, network calls, submissions,
resume reports) in the order they happen.
-/

namespace CryftTransfer

/-- `uint64` wrap-around arithmetic. -/
def u64 (n : Nat) : Nat := n % 18446744073709551616

/-- Go: `wrongLedgerIndexVal = 32768`, the sentinel for "no ledger index". -/
def wrongLedgerIndexVal : Nat := 32768

/-- Addresses (`ids.ShortID`) are opaque; modelled as naturals. -/
abbrev Addr := Nat

/-- Go: `units.Avax = 1_000_000_000`, the display-unit conversion factor. -/
def unitsAvax : Nat := 1000000000

/-- Go: `amount := uint64(amountFlt * float64(units.Avax))`.
The `float64` multiplication and truncating conversion are modelled over `ℚ`
(truncation toward zero equals `Rat.floor` on non-negative values; every
concrete input used below is a dyadic rational whose product with `10^9` is
exactly representable in `float64`, so the rational value coincides with the
Go computation there).  Go leaves the conversion of a negative or
out-of-range float to `uint64` implementation-dependent; the model maps
negative values to `0` via `Int.toNat`, and no theorem below depends on the
value produced for such inputs. -/
def amountToUnits (q : ℚ) : Nat := u64 (Int.toNat ⌊q * (unitsAvax : ℚ)⌋)

/-- Error outcomes of the command and of its collaborators. -/
inductive TErr where
  | bothSendReceive
  | credentialConflict
  | networkFail
  | promptFail
  | invalidAmount
  | keyLoadFail
  | ledgerFail
  | parseAddrFail
  | formatAddrFail
  | selfTransfer
  | walletFail
  | buildFail
  | signFail
  | issueRejected
  | timeoutPendingUnknown
deriving Repr, DecidableEq

/-- The interactive prompts the command can issue. -/
inductive PromptKind where
  | stepChoice
  | destChoice
  | keyOrLedger
  | ledgerIdx
  | amountAsk
  | recvAddrP
  | recvAddrX
deriving Repr, DecidableEq

/-- Observable events of one invocation, in program order.
`mkWallet` is a `primary.MakeWallet` network call (`some k` inside the
receive block for cursor `k`); `stepRun k` marks entry into the `ReceiveIn`
sub-step guarded by `receiveRecoveryStep == k`; `stepSubmit` marks the
submission of that sub-step's transaction (amount `some a` when the step
passes an explicit amount, as the cursor-1 export does); `resumeAt k` is the
"restart from this step" operator report (at cursor 0 the message is
"use the same command", i.e. resume value 0). -/
inductive Event where
  | prompted (k : PromptKind)
  | sendSummary (amount totalFee : Nat)
  | recvSummary (amount : Nat)
  | confirmAsked
  | cancelledMsg
  | mkWallet (cursor : Option Nat)
  | sendExport (outAmt : Nat) (toAddr : Addr)
  | stepRun (cursor : Nat)
  | stepSubmit (cursor : Nat) (amt : Option Nat) (toAddr : Addr)
  | resumeAt (cursor : Nat)
deriving Repr, DecidableEq

/-- The command-line flag set of `transfer` (global vars in the source). -/
structure Flags where
  send : Bool
  receive : Bool
  keyName : String
  ledgerIndex : Nat
  force : Bool
  receiverAddrStr : String
  amountFlt : ℚ
  receiveRecoveryStep : Nat
  PToX : Bool
  PToP : Bool

/-- Responses of every external collaborator the command consults, in the
order the source consults them.  The keychain is represented by its first
address `kcAddr` (`kc.Addresses().List()[0]`), the only address the command
ever reads from it. -/
structure Oracle where
  /-- `networkoptions.GetNetworkFromCmdLineFlags`; on success the relevant
  datum is `network.GenesisParams().TxFee`. -/
  network : Except TErr Nat
  /-- `CaptureList "Step of the transfer"`: `true` = "Send". -/
  stepIsSend : Except TErr Bool
  /-- `CaptureList "Destination Chain"`: `true` = "P-Chain". -/
  destIsP : Except TErr Bool
  /-- `prompts.GetFujiKeyOrLedger`: `(useLedger, keyName)`. -/
  keyOrLedger : Except TErr (Bool × String)
  /-- `CaptureUint32 "Ledger index to use"`. -/
  ledgerIdx : Except TErr Nat
  /-- `CaptureFloat` raw captured value (its validator is applied by the
  embedding, as in the source). -/
  amountCap : Except TErr ℚ
  /-- `key.LoadSoft` failure, if any. -/
  keyLoad : Option TErr
  /-- `ledger.New()` failure, if any. -/
  ledgerNew : Option TErr
  /-- `keychain.NewLedgerKeychainFromIndices` failure, if any. -/
  ledgerKc : Option TErr
  /-- First address of the constructed keychain. -/
  kcAddr : Addr
  /-- `CapturePChainAddress "Receiver address"`. -/
  recvAddrCapP : Except TErr String
  /-- `CaptureXChainAddress "Receiver address"`. -/
  recvAddrCapX : Except TErr String
  /-- `address.ParseToID`. -/
  parseAddr : String → Option Addr
  /-- `address.Format`. -/
  fmtAddr : Addr → Option String
  /-- `CaptureNoYes "Confirm transfer"`. -/
  confirm : Except TErr Bool
  /-- send path `primary.MakeWallet` failure, if any. -/
  sendWallet : Option TErr
  /-- send path `NewExportTx` failure, if any. -/
  sendBuild : Option TErr
  /-- send path `Signer().Sign` failure, if any. -/
  sendSign : Option TErr
  /-- send path `IssueTx` failure, if any. -/
  sendIssue : Option TErr
  /-- receive path `primary.MakeWallet` failure at cursor `k`, if any. -/
  recvWallet : Nat → Option TErr
  /-- cursor-0 `NewImportTx` failure, if any. -/
  recvBuild0 : Option TErr
  /-- cursor-0 `Signer().Sign` failure, if any. -/
  recvSign0 : Option TErr
  /-- cursor-0 `IssueTx` failure, if any. -/
  recvIssue0 : Option TErr
  /-- cursor-1 `subnet.IssueXToPExportTx` failure, if any. -/
  recvXPExport : Option TErr
  /-- cursor-2 `subnet.IssuePFromXImportTx` failure, if any. -/
  recvPXImport : Option TErr

/-- Source lines 315-328: if neither `--send` nor `--receive` was given,
prompt for the step; afterwards the mode is the value of `send`. -/
def resolveMode (f : Flags) (o : Oracle) : Except TErr Bool × List Event :=
  if f.send = false ∧ f.receive = false then
    match o.stepIsSend with
    | .error e => (.error e, [.prompted .stepChoice])
    | .ok b => (.ok b, [.prompted .stepChoice])
  else (.ok f.send, [])

/-- Source lines 330-343: if neither `--fund-p-chain` nor `--fund-x-chain`
was given, prompt for the destination chain; result `(PToP, PToX)`. -/
def resolveDest (f : Flags) (o : Oracle) : Except TErr (Bool × Bool) × List Event :=
  if f.PToP = false ∧ f.PToX = false then
    match o.destIsP with
    | .error e => (.error e, [.prompted .destChoice])
    | .ok true => (.ok (true, false), [.prompted .destChoice])
    | .ok false => (.ok (false, true), [.prompted .destChoice])
  else (.ok (f.PToP, f.PToX), [])

/-- Source lines 345-363: if neither a key name nor a ledger index was
given, prompt for one; result `(keyName, ledgerIndex)`. -/
def resolveCreds (f : Flags) (o : Oracle) : Except TErr (String × Nat) × List Event :=
  if f.keyName = "" ∧ f.ledgerIndex = wrongLedgerIndexVal then
    match o.keyOrLedger with
    | .error e => (.error e, [.prompted .keyOrLedger])
    | .ok (useLedger, kname) =>
      if useLedger then
        match o.ledgerIdx with
        | .error e => (.error e, [.prompted .keyOrLedger, .prompted .ledgerIdx])
        | .ok idx => (.ok (kname, idx), [.prompted .keyOrLedger, .prompted .ledgerIdx])
      else (.ok (kname, f.ledgerIndex), [.prompted .keyOrLedger])
  else (.ok (f.keyName, f.ledgerIndex), [])

/-- Source lines 365-381: if `--amount` is `0`, capture the amount
interactively; the source installs the validator
`if v <= 0 { return fmt.Errorf("value %f must be greater than zero", v) }`
in `CaptureFloat`, so a non-positive captured value is rejected (the
prompt collaborator surfaces the validator's failure, per its contract).
An amount given on the command line skips this block entirely. -/
def resolveAmount (f : Flags) (o : Oracle) : Except TErr ℚ × List Event :=
  if f.amountFlt = 0 then
    match o.amountCap with
    | .error e => (.error e, [.prompted .amountAsk])
    | .ok v =>
      if v ≤ 0 then (.error .invalidAmount, [.prompted .amountAsk])
      else (.ok v, [.prompted .amountAsk])
  else (.ok f.amountFlt, [])

/-- Source lines 386-404: build the keychain from the stored key when a key
name is present, otherwise from the ledger device; the observable outcome is
the keychain's first address. -/
def buildKeychain (kname : String) (o : Oracle) : Except TErr Addr × List Event :=
  if kname = "" then
    match o.ledgerNew with
    | some e => (.error e, [])
    | none =>
      match o.ledgerKc with
      | some e => (.error e, [])
      | none => (.ok o.kcAddr, [])
  else
    match o.keyLoad with
    | some e => (.error e, [])
    | none => (.ok o.kcAddr, [])

/-- Source lines 406-431: in send mode, prompt for the receiver address if
the `--target-addr` flag is empty (P- or X-chain prompt per destination) and
parse it; in receive mode the receiver is the keychain's own first address
(re-formatted for display, which can fail). -/
def resolveReceiver (isSend ptop : Bool) (f : Flags) (kc : Addr) (o : Oracle) :
    Except TErr Addr × List Event :=
  if isSend then
    if f.receiverAddrStr = "" then
      match (if ptop then o.recvAddrCapP else o.recvAddrCapX) with
      | .error e => (.error e, [.prompted (if ptop then .recvAddrP else .recvAddrX)])
      | .ok s =>
        match o.parseAddr s with
        | none => (.error .parseAddrFail, [.prompted (if ptop then .recvAddrP else .recvAddrX)])
        | some a => (.ok a, [.prompted (if ptop then .recvAddrP else .recvAddrX)])
    else
      match o.parseAddr f.receiverAddrStr with
      | none => (.error .parseAddrFail, [])
      | some a => (.ok a, [])
  else
    match o.fmtAddr kc with
    | none => (.error .formatAddrFail, [])
    | some _ => (.ok kc, [])

/-- Source lines 445-448: `totalFee := 4 * fee; if PToX { totalFee = 2 * fee }`. -/
def sendTotalFee (ptox : Bool) (fee : Nat) : Nat :=
  if ptox then u64 (2 * fee) else u64 (4 * fee)

/-- Source lines 433-465: print the operation summary (in send mode, after
formatting the sender address and checking `addr == receiverAddr && PToP`,
which aborts with the self-transfer error), then, unless `--force` was
given, ask the yes/no confirmation; `ok false` is the operator declining
("Cancelled", command returns nil). -/
def summaryAndConfirm (isSend ptop ptox force : Bool) (amount fee : Nat)
    (kc recvA : Addr) (o : Oracle) : Except TErr Bool × List Event :=
  let summ : Except TErr Unit × List Event :=
    if isSend then
      match o.fmtAddr kc with
      | none => (.error .formatAddrFail, [])
      | some _ =>
        if kc = recvA ∧ ptop = true then (.error .selfTransfer, [])
        else (.ok (), [.sendSummary amount (sendTotalFee ptox fee)])
    else (.ok (), [.recvSummary amount])
  match summ with
  | (.error e, t) => (.error e, t)
  | (.ok _, t) =>
    if force then (.ok true, t)
    else
      match o.confirm with
      | .error e => (.error e, t ++ [.confirmAsked])
      | .ok true => (.ok true, t ++ [.confirmAsked])
      | .ok false => (.ok false, t ++ [.confirmAsked, .cancelledMsg])

/-- Source lines 472-526: the send path.  One wallet construction, then
build/sign/submit of the P→X export whose output amount is
`amount + fee*3` (`amount + fee` when the destination is the X chain). -/
def sendExec (ptox : Bool) (amount fee : Nat) (toAddr : Addr) (o : Oracle) :
    Except TErr Unit × List Event :=
  match o.sendWallet with
  | some e => (.error e, [.mkWallet none])
  | none =>
    let amountPlusFee := if ptox then u64 (amount + fee) else u64 (amount + fee * 3)
    match o.sendBuild with
    | some e => (.error e, [.mkWallet none])
    | none =>
      match o.sendSign with
      | some e => (.error e, [.mkWallet none])
      | none =>
        match o.sendIssue with
        | some e => (.error e, [.mkWallet none, .sendExport amountPlusFee toAddr])
        | none => (.ok (), [.mkWallet none, .sendExport amountPlusFee toAddr])

/-- Source lines 611-635: the `receiveRecoveryStep == 2` block (X→P import);
any failure reports resume cursor 2 and terminates. -/
def recvBlock2 (toAddr : Addr) (o : Oracle) : Except TErr Unit × List Event :=
  match o.recvWallet 2 with
  | some e => (.error e, [.stepRun 2, .mkWallet (some 2), .resumeAt 2])
  | none =>
    match o.recvPXImport with
    | some e =>
      (.error e, [.stepRun 2, .mkWallet (some 2), .stepSubmit 2 none toAddr, .resumeAt 2])
    | none => (.ok (), [.stepRun 2, .mkWallet (some 2), .stepSubmit 2 none toAddr])

/-- Source lines 582-610: the `receiveRecoveryStep == 1` block (X→P export of
`amount + fee*1`); any failure reports resume cursor 1 and terminates; on
success the cursor is incremented and the cursor-2 block follows. -/
def recvBlock1 (amount fee : Nat) (toAddr : Addr) (o : Oracle) :
    Except TErr Unit × List Event :=
  match o.recvWallet 1 with
  | some e => (.error e, [.stepRun 1, .mkWallet (some 1), .resumeAt 1])
  | none =>
    match o.recvXPExport with
    | some e =>
      (.error e, [.stepRun 1, .mkWallet (some 1),
        .stepSubmit 1 (some (u64 (amount + fee * 1))) toAddr, .resumeAt 1])
    | none =>
      match recvBlock2 toAddr o with
      | (r, t) =>
        (r, [.stepRun 1, .mkWallet (some 1),
          .stepSubmit 1 (some (u64 (amount + fee * 1))) toAddr] ++ t)

/-- Source lines 528-581: the `receiveRecoveryStep == 0` block (P→X import).
Any failure prints "restart from this step by using the same command"
(resume cursor 0) and terminates.  On success, when the destination is the
X chain the command returns immediately; otherwise the cursor is
incremented and the cursor-1 block follows. -/
def recvBlock0 (ptox : Bool) (amount fee : Nat) (toAddr : Addr) (o : Oracle) :
    Except TErr Unit × List Event :=
  match o.recvWallet 0 with
  | some e => (.error e, [.stepRun 0, .mkWallet (some 0), .resumeAt 0])
  | none =>
    match o.recvBuild0 with
    | some e => (.error e, [.stepRun 0, .mkWallet (some 0), .resumeAt 0])
    | none =>
      match o.recvSign0 with
      | some e => (.error e, [.stepRun 0, .mkWallet (some 0), .resumeAt 0])
      | none =>
        match o.recvIssue0 with
        | some e =>
          (.error e, [.stepRun 0, .mkWallet (some 0), .stepSubmit 0 none toAddr, .resumeAt 0])
        | none =>
          if ptox then (.ok (), [.stepRun 0, .mkWallet (some 0), .stepSubmit 0 none toAddr])
          else
            match recvBlock1 amount fee toAddr o with
            | (r, t) =>
              (r, [.stepRun 0, .mkWallet (some 0), .stepSubmit 0 none toAddr] ++ t)

/-- Source lines 527-636: the receive path is three sequential blocks
guarded by `receiveRecoveryStep == 0/1/2`, with the variable incremented
after each acknowledged step, so execution starts at the supplied cursor and
proceeds in order; a cursor larger than 2 matches no block. -/
def recvExec (cursor : Nat) (ptox : Bool) (amount fee : Nat) (toAddr : Addr)
    (o : Oracle) : Except TErr Unit × List Event :=
  if cursor = 0 then recvBlock0 ptox amount fee toAddr o
  else if cursor = 1 then recvBlock1 amount fee toAddr o
  else if cursor = 2 then recvBlock2 toAddr o
  else (.ok (), [])

/-- The embedding of `transferF` (source lines 295-639): result of the
invocation together with its observable event trace. -/
def transferF (f : Flags) (o : Oracle) : Except TErr Unit × List Event :=
  if f.send = true ∧ f.receive = true then (.error .bothSendReceive, [])
  else if ¬ f.keyName = "" ∧ ¬ f.ledgerIndex = wrongLedgerIndexVal then
    (.error .credentialConflict, [])
  else
    match o.network with
    | .error e => (.error e, [])
    | .ok fee =>
      match resolveMode f o with
      | (.error e, t1) => (.error e, t1)
      | (.ok isSend, t1) =>
        match resolveDest f o with
        | (.error e, t2) => (.error e, t1 ++ t2)
        | (.ok (ptop, ptox), t2) =>
          match resolveCreds f o with
          | (.error e, t3) => (.error e, t1 ++ t2 ++ t3)
          | (.ok (kname, _lidx), t3) =>
            match resolveAmount f o with
            | (.error e, t4) => (.error e, t1 ++ t2 ++ t3 ++ t4)
            | (.ok amtQ, t4) =>
              let amount := amountToUnits amtQ
              match buildKeychain kname o with
              | (.error e, t5) => (.error e, t1 ++ t2 ++ t3 ++ t4 ++ t5)
              | (.ok kcA, t5) =>
                match resolveReceiver isSend ptop f kcA o with
                | (.error e, t6) => (.error e, t1 ++ t2 ++ t3 ++ t4 ++ t5 ++ t6)
                | (.ok recvA, t6) =>
                  match summaryAndConfirm isSend ptop ptox f.force amount fee kcA recvA o with
                  | (.error e, t7) => (.error e, t1 ++ t2 ++ t3 ++ t4 ++ t5 ++ t6 ++ t7)
                  | (.ok false, t7) => (.ok (), t1 ++ t2 ++ t3 ++ t4 ++ t5 ++ t6 ++ t7)
                  | (.ok true, t7) =>
                    match (if isSend then sendExec ptox amount fee recvA o
                           else recvExec f.receiveRecoveryStep ptox amount fee recvA o) with
                    | (r, t8) => (r, t1 ++ t2 ++ t3 ++ t4 ++ t5 ++ t6 ++ t7 ++ t8)

/-- Events that submit a ledger operation. -/
def isSubmit : Event → Bool
  | .sendExport _ _ => true
  | .stepSubmit _ _ _ => true
  | _ => false

/-- Events that are network calls (wallet construction or a submission). -/
def isNetCall : Event → Bool
  | .mkWallet _ => true
  | .sendExport _ _ => true
  | .stepSubmit _ _ _ => true
  | _ => false

/-- Events marking a `ReceiveIn` sub-step (entry or submission). -/
def isStepMark : Event → Bool
  | .stepRun _ => true
  | .stepSubmit _ _ _ => true
  | _ => false

/-- "Sub-step at cursor `k` of the receive workflow fails": some collaborator
invoked inside the block guarded by `receiveRecoveryStep == k` reports an
error (wallet construction, build, sign, or submission — including a
timeout, which is just one of the possible error values). -/
def blockFails (o : Oracle) : Nat → Prop
  | 0 => o.recvWallet 0 ≠ none ∨ o.recvBuild0 ≠ none ∨ o.recvSign0 ≠ none ∨
      o.recvIssue0 ≠ none
  | 1 => o.recvWallet 1 ≠ none ∨ o.recvXPExport ≠ none
  | 2 => o.recvWallet 2 ≠ none ∨ o.recvPXImport ≠ none
  | _ => False

/-- Every collaborator of the sub-step at cursor `k` succeeds. -/
def blockOk (o : Oracle) (k : Nat) : Prop := ¬ blockFails o k

/-- Flag/oracle configuration that brings a `ReceiveIn` (destination
P-chain) invocation through validation, credential loading and the
confirmation gate, so that the receive state machine runs. -/
def recvReady (f : Flags) (o : Oracle) (fee : Nat) : Prop :=
  f.send = false ∧ f.receive = true ∧
  f.PToP = true ∧ f.PToX = false ∧
  ¬ f.keyName = "" ∧ f.ledgerIndex = wrongLedgerIndexVal ∧
  ¬ f.amountFlt = 0 ∧
  o.network = Except.ok fee ∧ o.keyLoad = none ∧
  (∃ s, o.fmtAddr o.kcAddr = some s) ∧
  (f.force = true ∨ o.confirm = Except.ok true)

/-- Flag/oracle configuration that brings a `SendOut` invocation through
validation and credential loading with receiver address `a` parsed from the
command line. -/
def sendReady (f : Flags) (o : Oracle) (fee : Nat) (a : Addr) : Prop :=
  f.send = true ∧ f.receive = false ∧
  ¬ f.keyName = "" ∧ f.ledgerIndex = wrongLedgerIndexVal ∧
  ¬ f.amountFlt = 0 ∧
  o.network = Except.ok fee ∧ o.keyLoad = none ∧
  ¬ f.receiverAddrStr = "" ∧ o.parseAddr f.receiverAddrStr = some a ∧
  (∃ s, o.fmtAddr o.kcAddr = some s)

/-- A baseline `ReceiveIn` flag set: stored key, P-chain destination,
explicit amount `2.5`, cursor 1, confirmation bypassed. -/
def recvFlags : Flags :=
  { send := false, receive := true, keyName := "k",
    ledgerIndex := wrongLedgerIndexVal, force := true, receiverAddrStr := "",
    amountFlt := 5/2, receiveRecoveryStep := 1, PToX := false, PToP := true }

/-- An oracle in which every collaborator succeeds. -/
def allOkOracle : Oracle :=
  { network := .ok 10, stepIsSend := .ok false, destIsP := .ok true,
    keyOrLedger := .ok (false, ""), ledgerIdx := .ok 0, amountCap := .ok 0,
    keyLoad := none, ledgerNew := none, ledgerKc := none, kcAddr := 7,
    recvAddrCapP := .ok "", recvAddrCapX := .ok "",
    parseAddr := fun _ => some 9, fmtAddr := fun _ => some "x",
    confirm := .ok true, sendWallet := none, sendBuild := none,
    sendSign := none, sendIssue := none, recvWallet := fun _ => none,
    recvBuild0 := none, recvSign0 := none, recvIssue0 := none,
    recvXPExport := none, recvPXImport := none }

/-- Oracle whose cursor-1 export submission times out. -/
def recvOracleTimeout : Oracle :=
  { allOkOracle with recvXPExport := some .timeoutPendingUnknown }

/-- A `SendOut` flag set with X-chain destination, explicit amount `3`,
explicit receiver, confirmation bypassed. -/
def sendFlagsX : Flags :=
  { send := true, receive := false, keyName := "k",
    ledgerIndex := wrongLedgerIndexVal, force := true, receiverAddrStr := "r",
    amountFlt := 3, receiveRecoveryStep := 0, PToX := true, PToP := false }

/-- A `SendOut` flag set with P-chain destination, explicit amount `3`,
explicit receiver, confirmation bypassed. -/
def sendFlagsP : Flags :=
  { sendFlagsX with PToX := false, PToP := true }

/-- The §8 scenario: `SendOut`, amount 1.5 display units, P-chain
destination, confirmation prompt active. -/
def scenarioFlags : Flags :=
  { send := true, receive := false, keyName := "stored",
    ledgerIndex := wrongLedgerIndexVal, force := false, receiverAddrStr := "target",
    amountFlt := 3/2, receiveRecoveryStep := 0, PToX := false, PToP := true }

/-- A `ReceiveIn` invocation whose command-line amount is negative. -/
def negAmountFlags : Flags :=
  { send := false, receive := true, keyName := "k",
    ledgerIndex := wrongLedgerIndexVal, force := false, receiverAddrStr := "",
    amountFlt := -1, receiveRecoveryStep := 0, PToX := false, PToP := true }

/-- Oracle in which the operator declines the confirmation. -/
def declineOracle : Oracle := { allOkOracle with confirm := .ok false }

/-- Send flags with amount 0 on the command line (forces the interactive
amount prompt) and the confirmation gate active. -/
def zeroAmountFlags : Flags := { sendFlagsP with amountFlt := 0, force := false }

/-- Oracle whose interactive amount capture returns a negative value. -/
def negCaptureOracle : Oracle := { allOkOracle with amountCap := .ok (-2) }

/-- Oracle that parses every receiver string to the keychain's own first
address (`allOkOracle.kcAddr = 7`). -/
def selfOracle : Oracle := { allOkOracle with parseAddr := fun _ => some 7 }

/-- Flags with both a key name and a ledger index, and also both direction
flags, set. -/
def conflictFlags : Flags :=
  { sendFlagsP with receive := true, ledgerIndex := 3 }

/-- Flags with both a key name and a ledger index set (directions valid). -/
def credFlags : Flags := { sendFlagsP with ledgerIndex := 3 }

/-- Under a ready `ReceiveIn` configuration, the whole invocation is the
printed summary, the optional confirmation, and the receive state machine
started at the supplied cursor. -/
theorem transferF_recv_eq (f : Flags) (o : Oracle) (fee : Nat)
    (h : recvReady f o fee) :
    transferF f o =
      ((recvExec f.receiveRecoveryStep false (amountToUnits f.amountFlt) fee o.kcAddr o).fst,
       (Event.recvSummary (amountToUnits f.amountFlt) ::
         (if f.force then [] else [Event.confirmAsked])) ++
       (recvExec f.receiveRecoveryStep false (amountToUnits f.amountFlt) fee o.kcAddr o).snd) := by
  obtain ⟨hs, hr, hpp, hpx, hk, hl, ha, hn, hkl, ⟨s, hfmt⟩, hgate⟩ := h
  rcases hE : recvExec f.receiveRecoveryStep false (amountToUnits f.amountFlt) fee o.kcAddr o
    with ⟨r, t8⟩
  rcases hgate with hforce | hconf
  · simp [transferF, resolveMode, resolveDest, resolveCreds, resolveAmount,
      buildKeychain, resolveReceiver, summaryAndConfirm,
      hs, hr, hpp, hpx, hk, hl, ha, hn, hkl, hfmt, hforce, hE]
  · by_cases hf : f.force
    · simp [transferF, resolveMode, resolveDest, resolveCreds, resolveAmount,
        buildKeychain, resolveReceiver, summaryAndConfirm,
        hs, hr, hpp, hpx, hk, hl, ha, hn, hkl, hfmt, hf, hE]
    · simp [transferF, resolveMode, resolveDest, resolveCreds, resolveAmount,
        buildKeychain, resolveReceiver, summaryAndConfirm,
        hs, hr, hpp, hpx, hk, hl, ha, hn, hkl, hfmt, hf, hconf, hE]

/-- Under a ready `SendOut` configuration (receiver `a` distinct from the
sender when the destination is the P chain), the whole invocation is the
printed summary with the fee-schedule total, the optional confirmation, and
the single-step send execution. -/
theorem transferF_send_eq (f : Flags) (o : Oracle) (fee : Nat) (a : Addr)
    (h : sendReady f o fee a)
    (hdest : f.PToP = true ∨ f.PToX = true)
    (hself : ¬ (o.kcAddr = a ∧ f.PToP = true)) :
    transferF f o =
      (if f.force = true then
        ((sendExec f.PToX (amountToUnits f.amountFlt) fee a o).fst,
         Event.sendSummary (amountToUnits f.amountFlt) (sendTotalFee f.PToX fee) ::
           (sendExec f.PToX (amountToUnits f.amountFlt) fee a o).snd)
       else
        match o.confirm with
        | .error e => (.error e,
            [Event.sendSummary (amountToUnits f.amountFlt) (sendTotalFee f.PToX fee),
             Event.confirmAsked])
        | .ok true => ((sendExec f.PToX (amountToUnits f.amountFlt) fee a o).fst,
            Event.sendSummary (amountToUnits f.amountFlt) (sendTotalFee f.PToX fee) ::
              Event.confirmAsked ::
              (sendExec f.PToX (amountToUnits f.amountFlt) fee a o).snd)
        | .ok false => (.ok (),
            [Event.sendSummary (amountToUnits f.amountFlt) (sendTotalFee f.PToX fee),
             Event.confirmAsked, Event.cancelledMsg])) := by
  obtain ⟨hs, hr, hk, hl, ha, hn, hkl, hna, hparse, ⟨s, hfmt⟩⟩ := h
  rcases hE : sendExec f.PToX (amountToUnits f.amountFlt) fee a o with ⟨r, t8⟩
  have hd : (f.PToP = false ∧ f.PToX = false) = False := by
    rcases hdest with hd | hd <;> simp [hd]
  by_cases hf : f.force
  · simp [transferF, resolveMode, resolveDest, resolveCreds, resolveAmount,
      buildKeychain, resolveReceiver, summaryAndConfirm,
      hs, hr, hd, hk, hl, ha, hn, hkl, hna, hparse, hfmt, hself, hf, hE]
  · rcases hc : o.confirm with e | b
    · simp [transferF, resolveMode, resolveDest, resolveCreds, resolveAmount,
        buildKeychain, resolveReceiver, summaryAndConfirm,
        hs, hr, hd, hk, hl, ha, hn, hkl, hna, hparse, hfmt, hself, hf, hc, hE]
    · rcases b with _ | _ <;>
        simp [transferF, resolveMode, resolveDest, resolveCreds, resolveAmount,
          buildKeychain, resolveReceiver, summaryAndConfirm,
          hs, hr, hd, hk, hl, ha, hn, hkl, hna, hparse, hfmt, hself, hf, hc, hE]

/-- Evaluation rule for the display-to-denomination conversion when the
product is an exact natural number below `2^64`. -/
theorem amountToUnits_eq (q : ℚ) (n : Nat)
    (h : q * (unitsAvax : ℚ) = (n : ℚ)) (hlt : n < 18446744073709551616) :
    amountToUnits q = n := by
  simp [amountToUnits, h, u64, Nat.mod_eq_of_lt hlt]

/-- A negative display amount converts to `0` in the model (the Go
conversion of a negative float to `uint64` is implementation-dependent). -/
theorem amountToUnits_neg (q : ℚ) (h : q < 0) : amountToUnits q = 0 := by
  have hq : q * (unitsAvax : ℚ) ≤ 0 :=
    le_of_lt (mul_neg_of_neg_of_pos h (by norm_num [unitsAvax]))
  have hf : ⌊q * (unitsAvax : ℚ)⌋ ≤ 0 := Int.floor_nonpos hq
  simp [amountToUnits, u64, Int.toNat_of_nonpos hf]

theorem blockOk0_iff (o : Oracle) : blockOk o 0 ↔
    o.recvWallet 0 = none ∧ o.recvBuild0 = none ∧ o.recvSign0 = none ∧
      o.recvIssue0 = none := by
  simp [blockOk, blockFails, not_or]

theorem blockOk1_iff (o : Oracle) : blockOk o 1 ↔
    o.recvWallet 1 = none ∧ o.recvXPExport = none := by
  simp [blockOk, blockFails, not_or]

theorem blockOk2_iff (o : Oracle) : blockOk o 2 ↔
    o.recvWallet 2 = none ∧ o.recvPXImport = none := by
  simp [blockOk, blockFails, not_or]

theorem pre_mem (A : Nat) (b : Bool) (x : Event)
    (hx : x ∈ Event.recvSummary A :: (if b = true then [] else [Event.confirmAsked])) :
    x = Event.recvSummary A ∨ x = Event.confirmAsked := by
  cases b <;> simp_all

theorem pre_count_step (A k : Nat) (b : Bool) :
    (Event.recvSummary A :: (if b = true then [] else [Event.confirmAsked])).count
      (Event.stepRun k) = 0 := by
  cases b <;> simp [List.count_cons]

/-- If every sub-step of the receive state machine between the starting
cursor `c` and the failing cursor `k` succeeds and the sub-step at cursor
`k` fails, the machine stops with an error whose trace ends in the resume
report for `k`: no later sub-step is entered, no other resume value is
reported, and the failing sub-step was entered exactly once. -/
theorem recvExec_fail (o : Oracle) (A fee dst : Nat) (c k : Nat)
    (hk : k ≤ 2) (hstart : c ≤ k)
    (hbefore : ∀ j, c ≤ j → j < k → blockOk o j)
    (hfail : blockFails o k) :
    ∃ e t0, recvExec c false A fee dst o = (Except.error e, t0 ++ [Event.resumeAt k]) ∧
      (∀ j, Event.resumeAt j ∈ t0 ++ [Event.resumeAt k] → j = k) ∧
      (∀ j, k < j → Event.stepRun j ∉ t0 ++ [Event.resumeAt k]) ∧
      (t0 ++ [Event.resumeAt k]).count (Event.stepRun k) = 1 := by
  interval_cases k
  · interval_cases c
    rcases hw : o.recvWallet 0 with _ | e
    · rcases hb : o.recvBuild0 with _ | e
      · rcases hsg : o.recvSign0 with _ | e
        · rcases hi : o.recvIssue0 with _ | e
          · exfalso; simp [blockFails, hw, hb, hsg, hi] at hfail
          · refine ⟨e, [.stepRun 0, .mkWallet (some 0), .stepSubmit 0 none dst],
              by simp [recvExec, recvBlock0, hw, hb, hsg, hi], ?_, ?_, ?_⟩
            · intro j hj; simp at hj; exact hj
            · intro j hj; simp; omega
            · simp [List.count_cons]
        · refine ⟨e, [.stepRun 0, .mkWallet (some 0)],
            by simp [recvExec, recvBlock0, hw, hb, hsg], ?_, ?_, ?_⟩
          · intro j hj; simp at hj; exact hj
          · intro j hj; simp; omega
          · simp [List.count_cons]
      · refine ⟨e, [.stepRun 0, .mkWallet (some 0)],
          by simp [recvExec, recvBlock0, hw, hb], ?_, ?_, ?_⟩
        · intro j hj; simp at hj; exact hj
        · intro j hj; simp; omega
        · simp [List.count_cons]
    · refine ⟨e, [.stepRun 0, .mkWallet (some 0)],
        by simp [recvExec, recvBlock0, hw], ?_, ?_, ?_⟩
      · intro j hj; simp at hj; exact hj
      · intro j hj; simp; omega
      · simp [List.count_cons]
  · interval_cases c
    · obtain ⟨hw0, hb0, hs0, hi0⟩ := (blockOk0_iff o).mp (hbefore 0 (by omega) (by omega))
      rcases hw : o.recvWallet 1 with _ | e
      · rcases hx : o.recvXPExport with _ | e
        · exfalso; simp [blockFails, hw, hx] at hfail
        · refine ⟨e, [.stepRun 0, .mkWallet (some 0), .stepSubmit 0 none dst,
              .stepRun 1, .mkWallet (some 1),
              .stepSubmit 1 (some (u64 (A + fee * 1))) dst],
            by simp [recvExec, recvBlock0, recvBlock1, hw0, hb0, hs0, hi0, hw, hx],
            ?_, ?_, ?_⟩
          · intro j hj; simp at hj; exact hj
          · intro j hj; simp; omega
          · simp [List.count_cons]
      · refine ⟨e, [.stepRun 0, .mkWallet (some 0), .stepSubmit 0 none dst,
            .stepRun 1, .mkWallet (some 1)],
          by simp [recvExec, recvBlock0, recvBlock1, hw0, hb0, hs0, hi0, hw],
          ?_, ?_, ?_⟩
        · intro j hj; simp at hj; exact hj
        · intro j hj; simp; omega
        · simp [List.count_cons]
    · rcases hw : o.recvWallet 1 with _ | e
      · rcases hx : o.recvXPExport with _ | e
        · exfalso; simp [blockFails, hw, hx] at hfail
        · refine ⟨e, [.stepRun 1, .mkWallet (some 1),
              .stepSubmit 1 (some (u64 (A + fee * 1))) dst],
            by simp [recvExec, recvBlock1, hw, hx], ?_, ?_, ?_⟩
          · intro j hj; simp at hj; exact hj
          · intro j hj; simp; omega
          · simp [List.count_cons]
      · refine ⟨e, [.stepRun 1, .mkWallet (some 1)],
          by simp [recvExec, recvBlock1, hw], ?_, ?_, ?_⟩
        · intro j hj; simp at hj; exact hj
        · intro j hj; simp; omega
        · simp [List.count_cons]
  · interval_cases c
    · obtain ⟨hw0, hb0, hs0, hi0⟩ := (blockOk0_iff o).mp (hbefore 0 (by omega) (by omega))
      obtain ⟨hw1, hx1⟩ := (blockOk1_iff o).mp (hbefore 1 (by omega) (by omega))
      rcases hw : o.recvWallet 2 with _ | e
      · rcases hp : o.recvPXImport with _ | e
        · exfalso; simp [blockFails, hw, hp] at hfail
        · refine ⟨e, [.stepRun 0, .mkWallet (some 0), .stepSubmit 0 none dst,
              .stepRun 1, .mkWallet (some 1),
              .stepSubmit 1 (some (u64 (A + fee * 1))) dst,
              .stepRun 2, .mkWallet (some 2), .stepSubmit 2 none dst],
            by simp [recvExec, recvBlock0, recvBlock1, recvBlock2,
              hw0, hb0, hs0, hi0, hw1, hx1, hw, hp], ?_, ?_, ?_⟩
          · intro j hj; simp at hj; exact hj
          · intro j hj; simp; omega
          · simp [List.count_cons]
      · refine ⟨e, [.stepRun 0, .mkWallet (some 0), .stepSubmit 0 none dst,
            .stepRun 1, .mkWallet (some 1),
            .stepSubmit 1 (some (u64 (A + fee * 1))) dst,
            .stepRun 2, .mkWallet (some 2)],
          by simp [recvExec, recvBlock0, recvBlock1, recvBlock2,
            hw0, hb0, hs0, hi0, hw1, hx1, hw], ?_, ?_, ?_⟩
        · intro j hj; simp at hj; exact hj
        · intro j hj; simp; omega
        · simp [List.count_cons]
    · obtain ⟨hw1, hx1⟩ := (blockOk1_iff o).mp (hbefore 1 (by omega) (by omega))
      rcases hw : o.recvWallet 2 with _ | e
      · rcases hp : o.recvPXImport with _ | e
        · exfalso; simp [blockFails, hw, hp] at hfail
        · refine ⟨e, [.stepRun 1, .mkWallet (some 1),
              .stepSubmit 1 (some (u64 (A + fee * 1))) dst,
              .stepRun 2, .mkWallet (some 2), .stepSubmit 2 none dst],
            by simp [recvExec, recvBlock1, recvBlock2, hw1, hx1, hw, hp],
            ?_, ?_, ?_⟩
          · intro j hj; simp at hj; exact hj
          · intro j hj; simp; omega
          · simp [List.count_cons]
      · refine ⟨e, [.stepRun 1, .mkWallet (some 1),
            .stepSubmit 1 (some (u64 (A + fee * 1))) dst,
            .stepRun 2, .mkWallet (some 2)],
          by simp [recvExec, recvBlock1, recvBlock2, hw1, hx1, hw], ?_, ?_, ?_⟩
        · intro j hj; simp at hj; exact hj
        · intro j hj; simp; omega
        · simp [List.count_cons]
    · rcases hw : o.recvWallet 2 with _ | e
      · rcases hp : o.recvPXImport with _ | e
        · exfalso; simp [blockFails, hw, hp] at hfail
        · refine ⟨e, [.stepRun 2, .mkWallet (some 2), .stepSubmit 2 none dst],
            by simp [recvExec, recvBlock2, hw, hp], ?_, ?_, ?_⟩
          · intro j hj; simp at hj; exact hj
          · intro j hj; simp; omega
          · simp [List.count_cons]
      · refine ⟨e, [.stepRun 2, .mkWallet (some 2)],
          by simp [recvExec, recvBlock2, hw], ?_, ?_, ?_⟩
        · intro j hj; simp at hj; exact hj
        · intro j hj; simp; omega
        · simp [List.count_cons]

/-- C1: a `ReceiveIn` invocation whose sub-step at cursor `k` fails (wallet
construction, build, sign or submission error — including a timeout)
terminates immediately with an error: the reported resume value equals `k`
(failure at cursor 0 reports cursor 0), no sub-step past `k` is executed,
no other resume value is reported, and the failing sub-step is executed
exactly once (never retried). -/
theorem receive_failure_reports_cursor (f : Flags) (o : Oracle) (fee k : Nat)
    (hready : recvReady f o fee)
    (hk : k ≤ 2) (hstart : f.receiveRecoveryStep ≤ k)
    (hbefore : ∀ j, f.receiveRecoveryStep ≤ j → j < k → blockOk o j)
    (hfail : blockFails o k) :
    (∃ e, (transferF f o).fst = Except.error e) ∧
    (∃ t, (transferF f o).snd = t ++ [Event.resumeAt k]) ∧
    (∀ j, Event.resumeAt j ∈ (transferF f o).snd → j = k) ∧
    (∀ j, k < j → Event.stepRun j ∉ (transferF f o).snd) ∧
    (transferF f o).snd.count (Event.stepRun k) = 1 := by
  obtain ⟨e, t0, hX, hres, hrun, hcnt⟩ :=
    recvExec_fail o (amountToUnits f.amountFlt) fee o.kcAddr f.receiveRecoveryStep k
      hk hstart hbefore hfail
  rw [transferF_recv_eq f o fee hready, hX]
  dsimp only
  refine ⟨⟨e, rfl⟩,
    ⟨(Event.recvSummary (amountToUnits f.amountFlt) ::
        (if f.force = true then [] else [Event.confirmAsked])) ++ t0, by simp⟩,
    ?_, ?_, ?_⟩
  · intro j hj
    rcases List.mem_append.mp hj with hj | hj
    · rcases pre_mem _ _ _ hj with h | h <;> simp_all
    · exact hres j hj
  · intro j hjk hj
    rcases List.mem_append.mp hj with hj | hj
    · rcases pre_mem _ _ _ hj with h | h <;> simp_all
    · exact hrun j hjk hj
  · rw [List.count_append, pre_count_step, hcnt]

/-- C1 witness: a `ReceiveIn` invocation at cursor 1 whose export times out
reports resume cursor 1 and stops. -/
theorem receive_failure_reports_cursor_witness :
    (∃ e, (transferF recvFlags recvOracleTimeout).fst = Except.error e) ∧
    (∃ t, (transferF recvFlags recvOracleTimeout).snd = t ++ [Event.resumeAt 1]) ∧
    (∀ j, Event.resumeAt j ∈ (transferF recvFlags recvOracleTimeout).snd → j = 1) ∧
    (∀ j, 1 < j → Event.stepRun j ∉ (transferF recvFlags recvOracleTimeout).snd) ∧
    (transferF recvFlags recvOracleTimeout).snd.count (Event.stepRun 1) = 1 :=
  receive_failure_reports_cursor recvFlags recvOracleTimeout 10 1
    ⟨rfl, rfl, rfl, rfl, by decide, rfl, by norm_num [recvFlags], rfl, rfl,
      ⟨"x", rfl⟩, Or.inl rfl⟩
    (by omega) (by decide)
    (by intro j h1 h2; simp [recvFlags] at h1; omega)
    (Or.inr (by decide))

/-- If the receive machine starts at cursor 1 and both remaining sub-steps
succeed, it runs exactly the cursor-1 export followed by the
cursor-2 import and settles. -/
theorem recvExec_from1_ok (o : Oracle) (A fee dst : Nat)
    (h1 : blockOk o 1) (h2 : blockOk o 2) :
    recvExec 1 false A fee dst o =
      (Except.ok (), [.stepRun 1, .mkWallet (some 1),
        .stepSubmit 1 (some (u64 (A + fee * 1))) dst,
        .stepRun 2, .mkWallet (some 2), .stepSubmit 2 none dst]) := by
  obtain ⟨hw1, hx1⟩ := (blockOk1_iff o).mp h1
  obtain ⟨hw2, hp2⟩ := (blockOk2_iff o).mp h2
  simp [recvExec, recvBlock1, recvBlock2, hw1, hx1, hw2, hp2]

/-- C2: a `ReceiveIn` invocation with P-chain destination and cursor
argument 1 does not execute the cursor-0 sub-step: its step events are
exactly the cursor-1 export followed by the cursor-2 import, in that
order. -/
theorem receive_cursor1_skips_first_step (f : Flags) (o : Oracle) (fee : Nat)
    (hready : recvReady f o fee)
    (hstart : f.receiveRecoveryStep = 1)
    (h1 : blockOk o 1) (h2 : blockOk o 2) :
    (transferF f o).fst = Except.ok () ∧
    (transferF f o).snd.filter isStepMark =
      [Event.stepRun 1,
       Event.stepSubmit 1 (some (u64 (amountToUnits f.amountFlt + fee * 1))) o.kcAddr,
       Event.stepRun 2, Event.stepSubmit 2 none o.kcAddr] := by
  rw [transferF_recv_eq f o fee hready, hstart,
    recvExec_from1_ok o (amountToUnits f.amountFlt) fee o.kcAddr h1 h2]
  refine ⟨rfl, ?_⟩
  by_cases hf : f.force <;> simp [hf, isStepMark, List.filter]

/-- C2 witness: the concrete cursor-1 receive invocation executes exactly
the export and the final import. -/
theorem receive_cursor1_skips_first_step_witness :
    (transferF recvFlags allOkOracle).fst = Except.ok () ∧
    (transferF recvFlags allOkOracle).snd.filter isStepMark =
      [Event.stepRun 1,
       Event.stepSubmit 1 (some (u64 (amountToUnits recvFlags.amountFlt + 10 * 1)))
         allOkOracle.kcAddr,
       Event.stepRun 2, Event.stepSubmit 2 none allOkOracle.kcAddr] :=
  receive_cursor1_skips_first_step recvFlags allOkOracle 10
    ⟨rfl, rfl, rfl, rfl, by decide, rfl, by norm_num [recvFlags], rfl, rfl,
      ⟨"x", rfl⟩, Or.inl rfl⟩
    (by decide)
    (by simp [blockOk, blockFails, allOkOracle])
    (by simp [blockOk, blockFails, allOkOracle])

/-- C3: the total fee displayed by a send is `2 * fee` when the destination
is the X chain and `4 * fee` when it is the P chain, and the cursor-1
receive export submits the amount plus exactly one base-fee unit. -/
theorem fee_schedule_exact :
    (∀ f o fee a, sendReady f o fee a → f.PToX = true → f.PToP = false →
      2 * fee < 18446744073709551616 →
      Event.sendSummary (amountToUnits f.amountFlt) (2 * fee) ∈ (transferF f o).snd) ∧
    (∀ f o fee a, sendReady f o fee a → f.PToX = false → f.PToP = true →
      o.kcAddr ≠ a → 4 * fee < 18446744073709551616 →
      Event.sendSummary (amountToUnits f.amountFlt) (4 * fee) ∈ (transferF f o).snd) ∧
    (∀ f o fee, recvReady f o fee → f.receiveRecoveryStep = 1 →
      o.recvWallet 1 = none →
      amountToUnits f.amountFlt + fee * 1 < 18446744073709551616 →
      Event.stepSubmit 1 (some (amountToUnits f.amountFlt + fee * 1)) o.kcAddr
        ∈ (transferF f o).snd) := by
  refine ⟨?_, ?_, ?_⟩
  · intro f o fee a h hx hp hlt
    have hself : ¬ (o.kcAddr = a ∧ f.PToP = true) := by simp [hp]
    have htf : sendTotalFee f.PToX fee = 2 * fee := by
      simp [sendTotalFee, u64, hx, Nat.mod_eq_of_lt hlt]
    rw [transferF_send_eq f o fee a h (Or.inr hx) hself]
    by_cases hf : f.force
    · simp [hf, htf]
    · rcases hc : o.confirm with e | b
      · simp [hf, hc, htf]
      · rcases b with _ | _ <;> simp [hf, hc, htf]
  · intro f o fee a h hx hp hne hlt
    have hself : ¬ (o.kcAddr = a ∧ f.PToP = true) := by simp [hne]
    have htf : sendTotalFee f.PToX fee = 4 * fee := by
      simp [sendTotalFee, u64, hx, Nat.mod_eq_of_lt hlt]
    rw [transferF_send_eq f o fee a h (Or.inl hp) hself]
    by_cases hf : f.force
    · simp [hf, htf]
    · rcases hc : o.confirm with e | b
      · simp [hf, hc, htf]
      · rcases b with _ | _ <;> simp [hf, hc, htf]
  · intro f o fee h hstart hw1 hlt
    have hu : u64 (amountToUnits f.amountFlt + fee) =
        amountToUnits f.amountFlt + fee := by
      simp only [u64]; omega
    rw [transferF_recv_eq f o fee h, hstart]
    rcases hx : o.recvXPExport with _ | e
    · rcases hw2 : o.recvWallet 2 with _ | e2
      · rcases hp2 : o.recvPXImport with _ | e2 <;>
          simp [recvExec, recvBlock1, recvBlock2, hw1, hx, hw2, hp2, hu]
      · simp [recvExec, recvBlock1, recvBlock2, hw1, hx, hw2, hu]
    · simp [recvExec, recvBlock1, hw1, hx, hu]

/-- C3 witness: concrete sends to each destination display the 2× and 4×
fee totals, and the concrete cursor-1 receive export carries one fee
unit. -/
theorem fee_schedule_exact_witness :
    Event.sendSummary (amountToUnits sendFlagsX.amountFlt) (2 * 10)
      ∈ (transferF sendFlagsX allOkOracle).snd ∧
    Event.sendSummary (amountToUnits sendFlagsP.amountFlt) (4 * 10)
      ∈ (transferF sendFlagsP allOkOracle).snd ∧
    Event.stepSubmit 1 (some (amountToUnits recvFlags.amountFlt + 10 * 1))
      allOkOracle.kcAddr ∈ (transferF recvFlags allOkOracle).snd :=
  ⟨fee_schedule_exact.1 sendFlagsX allOkOracle 10 9
      ⟨rfl, rfl, by decide, rfl, by show ¬ (3 : ℚ) = 0; norm_num, rfl, rfl,
        by decide, rfl, ⟨"x", rfl⟩⟩
      rfl rfl (by norm_num),
   fee_schedule_exact.2.1 sendFlagsP allOkOracle 10 9
      ⟨rfl, rfl, by decide, rfl, by show ¬ (3 : ℚ) = 0; norm_num, rfl, rfl,
        by decide, rfl, ⟨"x", rfl⟩⟩
      rfl rfl (by decide) (by norm_num),
   fee_schedule_exact.2.2 recvFlags allOkOracle 10
      ⟨rfl, rfl, rfl, rfl, by decide, rfl, by norm_num [recvFlags], rfl, rfl,
        ⟨"x", rfl⟩, Or.inl rfl⟩
      (by decide) rfl
      (by rw [show recvFlags.amountFlt = 5/2 from rfl,
            amountToUnits_eq (5/2) 2500000000 (by norm_num [unitsAvax]) (by norm_num)]
          norm_num)⟩

/-- C4: the §8 scenario — `SendOut` of 1.5 display units to the P chain
with base fee 10.  The invocation displays amount `1.5×10^9` and total fee
`4×10` before the confirmation prompt, and the export output plus the
export's own base fee — the total debited from the source — equals
`1.5×10^9 + 4×10`. -/
theorem send_scenario_total_debit :
    transferF scenarioFlags allOkOracle =
      (Except.ok (), [Event.sendSummary 1500000000 40, Event.confirmAsked,
        Event.mkWallet none, Event.sendExport 1500000030 9]) ∧
    amountToUnits scenarioFlags.amountFlt = 1500000000 ∧
    1500000030 + 10 = 1500000000 + 4 * 10 := by
  have hA : amountToUnits (3/2) = 1500000000 :=
    amountToUnits_eq (3/2) 1500000000 (by norm_num [unitsAvax]) (by norm_num)
  have hready : sendReady scenarioFlags allOkOracle 10 9 :=
    ⟨rfl, rfl, by decide, rfl, by show ¬ (3/2 : ℚ) = 0; norm_num, rfl, rfl,
      by decide, rfl, ⟨"x", rfl⟩⟩
  refine ⟨?_, hA, by norm_num⟩
  rw [transferF_send_eq scenarioFlags allOkOracle 10 9 hready (Or.inl rfl)
    (by decide)]
  have hflt : scenarioFlags.amountFlt = 3/2 := rfl
  simp [scenarioFlags, allOkOracle, sendExec, sendTotalFee, hflt, hA, u64]

/-- C5 counterexample: an invocation whose command-line amount is negative
is never rejected with the invalid-amount error: it converts the amount,
prints the summary, reaches the confirmation prompt, and (here, with the
operator declining) terminates without any error at all. -/
theorem cli_negative_amount_not_rejected :
    negAmountFlags.amountFlt < 0 ∧
    transferF negAmountFlags declineOracle =
      (Except.ok (), [Event.recvSummary 0, Event.confirmAsked, Event.cancelledMsg]) := by
  have hne : ((-1 : ℚ) = 0) = False := by norm_num
  have hA : amountToUnits (-1 : ℚ) = 0 := amountToUnits_neg _ (by norm_num)
  refine ⟨by show (-1 : ℚ) < 0; norm_num, ?_⟩
  simp [transferF, resolveMode, resolveDest, resolveCreds, resolveAmount,
    buildKeychain, resolveReceiver, summaryAndConfirm,
    negAmountFlags, declineOracle, allOkOracle, hne, hA]

/-- C5 amended: a non-positive amount captured at the interactive prompt is
always rejected with the invalid-amount error, before the keychain is
built, before conversion is used, and before any network call (the trace
holds nothing but the amount prompt); an amount supplied on the command
line reaches this check only when it equals 0 — the value that triggers
the prompt — so a negative command-line amount bypasses it. -/
theorem interactive_nonpositive_amount_rejected (f : Flags) (o : Oracle)
    (fee : Nat) (v : ℚ)
    (hs : f.send = true) (hr : f.receive = false)
    (hpp : f.PToP = true) (hpx : f.PToX = false)
    (hk : ¬ f.keyName = "") (hl : f.ledgerIndex = wrongLedgerIndexVal)
    (ha : f.amountFlt = 0)
    (hn : o.network = Except.ok fee)
    (hcap : o.amountCap = Except.ok v) (hv : v ≤ 0) :
    transferF f o =
      (Except.error TErr.invalidAmount, [Event.prompted PromptKind.amountAsk]) := by
  simp [transferF, resolveMode, resolveDest, resolveCreds, resolveAmount,
    hs, hr, hpp, hpx, hk, hl, ha, hn, hcap, hv]

/-- C5 amended witness: a zero command-line amount prompts, and the captured
`-2` is rejected with the invalid-amount error before anything else. -/
theorem interactive_nonpositive_amount_rejected_witness :
    transferF zeroAmountFlags negCaptureOracle =
      (Except.error TErr.invalidAmount, [Event.prompted PromptKind.amountAsk]) :=
  interactive_nonpositive_amount_rejected zeroAmountFlags negCaptureOracle 10 (-2)
    rfl rfl rfl rfl (by decide) rfl rfl rfl rfl (by norm_num)

/-- C6: a send whose keychain first address equals the parsed receiver
address fails with the self-transfer error — with an empty trace, hence
before any network call — when the destination is the P chain; with the
X-chain destination the same pair of addresses is not rejected by this
check and the invocation goes on to print the summary. -/
theorem self_transfer_guard :
    (∀ f o fee a, sendReady f o fee a → f.PToP = true →
      o.kcAddr = a →
      transferF f o = (Except.error TErr.selfTransfer, [])) ∧
    (∀ f o fee a, sendReady f o fee a → f.PToP = false → f.PToX = true →
      o.kcAddr = a →
      Event.sendSummary (amountToUnits f.amountFlt) (sendTotalFee true fee)
        ∈ (transferF f o).snd) := by
  constructor
  · intro f o fee a h hpp heq
    obtain ⟨hs, hr, hk, hl, ha, hn, hkl, hna, hparse, ⟨s, hfmt⟩⟩ := h
    subst heq
    simp [transferF, resolveMode, resolveDest, resolveCreds, resolveAmount,
      buildKeychain, resolveReceiver, summaryAndConfirm,
      hs, hr, hpp, hk, hl, ha, hn, hkl, hna, hparse, hfmt]
  · intro f o fee a h hpp hpx heq
    have hself : ¬ (o.kcAddr = a ∧ f.PToP = true) := by simp [hpp]
    rw [transferF_send_eq f o fee a h (Or.inr hpx) hself, hpx]
    by_cases hf : f.force
    · simp [hf]
    · rcases hc : o.confirm with e | b
      · simp [hf, hc]
      · rcases b with _ | _ <;> simp [hf, hc]

/-- C6 witness: with the receiver parsing to the keychain's own address
(7 = 7), the P-chain send is rejected as a self transfer with an empty
trace, while the X-chain send still prints its summary. -/
theorem self_transfer_guard_witness :
    transferF sendFlagsP selfOracle = (Except.error TErr.selfTransfer, []) ∧
    Event.sendSummary (amountToUnits sendFlagsX.amountFlt) (sendTotalFee true 10)
      ∈ (transferF sendFlagsX selfOracle).snd :=
  ⟨self_transfer_guard.1 sendFlagsP selfOracle 10 7
      ⟨rfl, rfl, by decide, rfl, by show ¬ (3 : ℚ) = 0; norm_num, rfl, rfl,
        by decide, rfl, ⟨"x", rfl⟩⟩
      rfl rfl,
   self_transfer_guard.2 sendFlagsX selfOracle 10 7
      ⟨rfl, rfl, by decide, rfl, by show ¬ (3 : ℚ) = 0; norm_num, rfl, rfl,
        by decide, rfl, ⟨"x", rfl⟩⟩
      rfl rfl rfl⟩

/-- C7 counterexample: an invocation that specifies both a key name and a
ledger index but also sets both direction flags fails with the
direction-conflict error, not the credential-conflict error. -/
theorem cred_conflict_shadowed_by_direction_conflict :
    ¬ conflictFlags.keyName = "" ∧
    ¬ conflictFlags.ledgerIndex = wrongLedgerIndexVal ∧
    transferF conflictFlags allOkOracle = (Except.error TErr.bothSendReceive, []) ∧
    (transferF conflictFlags allOkOracle).fst ≠ Except.error TErr.credentialConflict := by
  refine ⟨by decide, by decide, ?_, ?_⟩
  · simp [transferF, conflictFlags, sendFlagsP, sendFlagsX]
  · simp [transferF, conflictFlags, sendFlagsP, sendFlagsX]

/-- C7 amended: an invocation that specifies both a named key credential
and a hardware ledger index fails with the credential-conflict error with
an empty trace — before any prompt or network call — provided it does not
also set both direction flags (that conflict is checked first). -/
theorem cred_conflict_rejected (f : Flags) (o : Oracle)
    (hk : ¬ f.keyName = "") (hl : ¬ f.ledgerIndex = wrongLedgerIndexVal)
    (hsr : ¬ (f.send = true ∧ f.receive = true)) :
    transferF f o = (Except.error TErr.credentialConflict, []) := by
  simp [transferF, hsr, hk, hl]

/-- C7 amended witness. -/
theorem cred_conflict_rejected_witness :
    transferF credFlags allOkOracle = (Except.error TErr.credentialConflict, []) :=
  cred_conflict_rejected credFlags allOkOracle (by decide) (by decide) (by decide)

theorem resolveMode_events (f : Flags) (o : Oracle) :
    ∀ x ∈ (resolveMode f o).snd, ∃ p, x = Event.prompted p := by
  intro x hx
  by_cases h : f.send = false ∧ f.receive = false
  · rcases hs : o.stepIsSend with e | b <;>
      simp [resolveMode, h, hs] at hx <;> exact ⟨_, hx⟩
  · simp [resolveMode, h] at hx

theorem resolveDest_events (f : Flags) (o : Oracle) :
    ∀ x ∈ (resolveDest f o).snd, ∃ p, x = Event.prompted p := by
  intro x hx
  by_cases h : f.PToP = false ∧ f.PToX = false
  · rcases hd : o.destIsP with e | b
    · simp [resolveDest, h, hd] at hx; exact ⟨_, hx⟩
    · cases b <;> simp [resolveDest, h, hd] at hx <;> exact ⟨_, hx⟩
  · simp [resolveDest, h] at hx

theorem resolveCreds_events (f : Flags) (o : Oracle) :
    ∀ x ∈ (resolveCreds f o).snd, ∃ p, x = Event.prompted p := by
  intro x hx
  by_cases h : f.keyName = "" ∧ f.ledgerIndex = wrongLedgerIndexVal
  · rcases hkl : o.keyOrLedger with e | ⟨ul, kn⟩
    · simp [resolveCreds, h, hkl] at hx; exact ⟨_, hx⟩
    · cases ul
      · simp [resolveCreds, h, hkl] at hx; exact ⟨_, hx⟩
      · rcases hli : o.ledgerIdx with e | idx <;>
          simp [resolveCreds, h, hkl, hli] at hx <;>
          rcases hx with hx | hx <;> exact ⟨_, hx⟩
  · simp [resolveCreds, h] at hx

theorem resolveAmount_events (f : Flags) (o : Oracle) :
    ∀ x ∈ (resolveAmount f o).snd, ∃ p, x = Event.prompted p := by
  intro x hx
  by_cases h : f.amountFlt = 0
  · rcases hc : o.amountCap with e | v
    · simp [resolveAmount, h, hc] at hx; exact ⟨_, hx⟩
    · by_cases hv : v ≤ 0 <;> simp [resolveAmount, h, hc, hv] at hx <;>
        exact ⟨_, hx⟩
  · simp [resolveAmount, h] at hx

theorem buildKeychain_trace (kn : String) (o : Oracle) :
    (buildKeychain kn o).snd = [] := by
  by_cases h : kn = ""
  · rcases hn : o.ledgerNew with _ | e
    · rcases hk2 : o.ledgerKc with _ | e <;> simp [buildKeychain, h, hn, hk2]
    · simp [buildKeychain, h, hn]
  · rcases hk2 : o.keyLoad with _ | e <;> simp [buildKeychain, h, hk2]

theorem resolveReceiver_events (isS pt : Bool) (f : Flags) (kc : Addr) (o : Oracle) :
    ∀ x ∈ (resolveReceiver isS pt f kc o).snd, ∃ p, x = Event.prompted p := by
  intro x hx
  cases isS
  · rcases hf2 : o.fmtAddr kc with _ | s <;> simp [resolveReceiver, hf2] at hx
  · by_cases h : f.receiverAddrStr = ""
    · cases pt
      · rcases hc : o.recvAddrCapX with e | s
        · simp [resolveReceiver, h, hc] at hx; exact ⟨_, hx⟩
        · rcases hp : o.parseAddr s with _ | a2 <;>
            simp [resolveReceiver, h, hc, hp] at hx <;> exact ⟨_, hx⟩
      · rcases hc : o.recvAddrCapP with e | s
        · simp [resolveReceiver, h, hc] at hx; exact ⟨_, hx⟩
        · rcases hp : o.parseAddr s with _ | a2 <;>
            simp [resolveReceiver, h, hc, hp] at hx <;> exact ⟨_, hx⟩
    · rcases hp : o.parseAddr f.receiverAddrStr with _ | a2 <;>
        simp [resolveReceiver, h, hp] at hx

theorem prompts_no_submit {t : List Event}
    (h : ∀ x ∈ t, ∃ p, x = Event.prompted p) :
    (∀ x ∈ t, isSubmit x = false) ∧ Event.confirmAsked ∉ t := by
  constructor
  · intro x hx; obtain ⟨p, rfl⟩ := h x hx; rfl
  · intro hc; obtain ⟨p, hp⟩ := h _ hc; exact Event.noConfusion hp

theorem prompts_append {s t : List Event}
    (hs : ∀ x ∈ s, ∃ p, x = Event.prompted p)
    (ht : ∀ x ∈ t, ∃ p, x = Event.prompted p) :
    ∀ x ∈ s ++ t, ∃ p, x = Event.prompted p := by
  intro x hx
  rcases List.mem_append.mp hx with h | h
  exacts [hs x h, ht x h]

theorem summaryAndConfirm_mem (isS pt px fo : Bool) (amount fee : Nat)
    (kc recvA : Addr) (o : Oracle) (x : Event)
    (hx : x ∈ (summaryAndConfirm isS pt px fo amount fee kc recvA o).snd) :
    x = Event.sendSummary amount (sendTotalFee px fee) ∨
    x = Event.recvSummary amount ∨ x = Event.confirmAsked ∨
    x = Event.cancelledMsg := by
  by_cases hKC : kc = recvA
  · subst hKC
    cases pt <;> cases isS <;> cases fo <;>
    rcases hfmt : o.fmtAddr kc with _ | s <;>
    rcases hc : o.confirm with e | b <;>
    (try cases b) <;>
    simp [summaryAndConfirm, hfmt, hc] at hx <;>
    tauto
  · cases pt <;> cases isS <;> cases fo <;>
    rcases hfmt : o.fmtAddr kc with _ | s <;>
    rcases hc : o.confirm with e | b <;>
    (try cases b) <;>
    simp [summaryAndConfirm, hKC, hfmt, hc] at hx <;>
    tauto

theorem summaryAndConfirm_force_no_confirm (isS pt px : Bool) (amount fee : Nat)
    (kc recvA : Addr) (o : Oracle) :
    Event.confirmAsked ∉ (summaryAndConfirm isS pt px true amount fee kc recvA o).snd := by
  by_cases hKC : kc = recvA
  · subst hKC
    cases pt <;> cases isS <;>
      rcases hfmt : o.fmtAddr kc with _ | s <;>
      simp [summaryAndConfirm, hfmt]
  · cases pt <;> cases isS <;>
      rcases hfmt : o.fmtAddr kc with _ | s <;>
      simp [summaryAndConfirm, hKC, hfmt]

theorem summaryAndConfirm_force_not_declined (isS pt px : Bool) (amount fee : Nat)
    (kc recvA : Addr) (o : Oracle) :
    (summaryAndConfirm isS pt px true amount fee kc recvA o).fst ≠ Except.ok false := by
  by_cases hKC : kc = recvA
  · subst hKC
    cases pt <;> cases isS <;>
      rcases hfmt : o.fmtAddr kc with _ | s <;>
      simp [summaryAndConfirm, hfmt]
  · cases pt <;> cases isS <;>
      rcases hfmt : o.fmtAddr kc with _ | s <;>
      simp [summaryAndConfirm, hKC, hfmt]

theorem summaryAndConfirm_ok_true (isS pt px fo : Bool) (amount fee : Nat)
    (kc recvA : Addr) (o : Oracle)
    (h : (summaryAndConfirm isS pt px fo amount fee kc recvA o).fst = Except.ok true)
    (hfo : fo = false) :
    o.confirm = Except.ok true ∧
    ∃ t1, (summaryAndConfirm isS pt px fo amount fee kc recvA o).snd =
      t1 ++ [Event.confirmAsked] ∧ Event.confirmAsked ∉ t1 := by
  subst hfo
  cases isS
  · rcases hc : o.confirm with e | b
    · simp [summaryAndConfirm, hc] at h
    · cases b
      · simp [summaryAndConfirm, hc] at h
      · exact ⟨rfl, [Event.recvSummary amount],
          by simp [summaryAndConfirm, hc], by simp⟩
  · rcases hfmt : o.fmtAddr kc with _ | s
    · simp [summaryAndConfirm, hfmt] at h
    · by_cases hKC : kc = recvA
      · subst hKC
        cases pt
        · rcases hc : o.confirm with e | b
          · simp [summaryAndConfirm, hfmt, hc] at h
          · cases b
            · simp [summaryAndConfirm, hfmt, hc] at h
            · exact ⟨rfl, [Event.sendSummary amount (sendTotalFee px fee)],
                by simp [summaryAndConfirm, hfmt, hc], by simp⟩
        · simp [summaryAndConfirm, hfmt] at h
      · rcases hc : o.confirm with e | b
        · simp [summaryAndConfirm, hKC, hfmt, hc] at h
        · cases b
          · simp [summaryAndConfirm, hKC, hfmt, hc] at h
          · exact ⟨rfl, [Event.sendSummary amount (sendTotalFee px fee)],
              by simp [summaryAndConfirm, hKC, hfmt, hc], by simp⟩

theorem sendExec_no_confirm (px : Bool) (amount fee dst : Nat) (o : Oracle) :
    Event.confirmAsked ∉ (sendExec px amount fee dst o).snd := by
  rcases h1 : o.sendWallet with _ | e1 <;>
  rcases h2 : o.sendBuild with _ | e2 <;>
  rcases h3 : o.sendSign with _ | e3 <;>
  rcases h4 : o.sendIssue with _ | e4 <;>
  simp [sendExec, h1, h2, h3, h4]

theorem recvBlock2_no_confirm (dst : Nat) (o : Oracle) :
    Event.confirmAsked ∉ (recvBlock2 dst o).snd := by
  rcases h1 : o.recvWallet 2 with _ | e1 <;>
  rcases h2 : o.recvPXImport with _ | e2 <;>
  simp [recvBlock2, h1, h2]

theorem recvBlock1_no_confirm (A fee dst : Nat) (o : Oracle) :
    Event.confirmAsked ∉ (recvBlock1 A fee dst o).snd := by
  have hb2 := recvBlock2_no_confirm dst o
  rcases hB : recvBlock2 dst o with ⟨r2, t2⟩
  rw [hB] at hb2
  rcases h1 : o.recvWallet 1 with _ | e1 <;>
  rcases h2 : o.recvXPExport with _ | e2 <;>
  simp [recvBlock1, h1, h2, hB, hb2]

theorem recvBlock0_no_confirm (px : Bool) (A fee dst : Nat) (o : Oracle) :
    Event.confirmAsked ∉ (recvBlock0 px A fee dst o).snd := by
  have hb1 := recvBlock1_no_confirm A fee dst o
  rcases hB : recvBlock1 A fee dst o with ⟨r1, t1⟩
  rw [hB] at hb1
  rcases h1 : o.recvWallet 0 with _ | e1 <;>
  rcases h2 : o.recvBuild0 with _ | e2 <;>
  rcases h3 : o.recvSign0 with _ | e3 <;>
  rcases h4 : o.recvIssue0 with _ | e4 <;>
  cases px <;>
  simp [recvBlock0, h1, h2, h3, h4, hB, hb1]

theorem recvExec_no_confirm (c : Nat) (px : Bool) (A fee dst : Nat) (o : Oracle) :
    Event.confirmAsked ∉ (recvExec c px A fee dst o).snd := by
  unfold recvExec
  by_cases h0 : c = 0
  · simp [h0, recvBlock0_no_confirm]
  · by_cases hc1 : c = 1
    · simp [h0, hc1, recvBlock1_no_confirm]
    · by_cases hc2 : c = 2
      · simp [h0, hc1, hc2, recvBlock2_no_confirm]
      · simp [h0, hc1, hc2]

/-- Structural dichotomy of a `transferF` run: either the run never reaches
the execution phase (no submission at all, and no confirmation was asked if
`--force` was set), or it executes — in which case the gate passed
(`--force` or an explicit yes), the whole trace splits into the pre-gate
part (no submissions) and the execution part (no confirmation events), and
without `--force` the pre-gate part ends with the单 confirmation. -/
theorem transferF_shape (f : Flags) (o : Oracle) :
    ((∀ x ∈ (transferF f o).snd, isSubmit x = false) ∧
      (f.force = true → Event.confirmAsked ∉ (transferF f o).snd))
    ∨ ((f.force = true ∨ o.confirm = Except.ok true) ∧
       ∃ t0 t8, (transferF f o).snd = t0 ++ t8 ∧
         (∀ x ∈ t0, isSubmit x = false) ∧
         Event.confirmAsked ∉ t8 ∧
         (f.force = true → Event.confirmAsked ∉ t0) ∧
         (f.force = false → ∃ t1, t0 = t1 ++ [Event.confirmAsked] ∧
            Event.confirmAsked ∉ t1)) := by
  by_cases h1 : f.send = true ∧ f.receive = true
  · left; simp [transferF, h1]
  · by_cases h2 : ¬ f.keyName = "" ∧ ¬ f.ledgerIndex = wrongLedgerIndexVal
    · left; simp [transferF, h1, h2]
    · rcases hn : o.network with e | fee
      · left; simp [transferF, h1, h2, hn]
      · have hm1 := resolveMode_events f o
        rcases hm : resolveMode f o with ⟨rm, t1⟩
        rw [hm] at hm1
        rcases rm with e | isS
        · left
          have hT : (transferF f o).snd = t1 := by simp [transferF, h1, h2, hn, hm]
          rw [hT]
          obtain ⟨ha, hb⟩ := prompts_no_submit hm1
          exact ⟨ha, fun _ => hb⟩
        · have hd1 := resolveDest_events f o
          rcases hd : resolveDest f o with ⟨rd, t2⟩
          rw [hd] at hd1
          rcases rd with e | ⟨pt, px⟩
          · left
            have hT : (transferF f o).snd = t1 ++ t2 := by
              simp [transferF, h1, h2, hn, hm, hd]
            rw [hT]
            obtain ⟨ha, hb⟩ := prompts_no_submit (prompts_append hm1 hd1)
            exact ⟨ha, fun _ => hb⟩
          · have hc1 := resolveCreds_events f o
            rcases hcr : resolveCreds f o with ⟨rc, t3⟩
            rw [hcr] at hc1
            rcases rc with e | ⟨kn, li⟩
            · left
              have hT : (transferF f o).snd = t1 ++ t2 ++ t3 := by
                simp [transferF, h1, h2, hn, hm, hd, hcr]
              rw [hT]
              obtain ⟨ha, hb⟩ :=
                prompts_no_submit (prompts_append (prompts_append hm1 hd1) hc1)
              exact ⟨ha, fun _ => hb⟩
            · have ha1 := resolveAmount_events f o
              rcases ham : resolveAmount f o with ⟨ra, t4⟩
              rw [ham] at ha1
              rcases ra with e | aq
              · left
                have hT : (transferF f o).snd = t1 ++ t2 ++ t3 ++ t4 := by
                  simp [transferF, h1, h2, hn, hm, hd, hcr, ham]
                rw [hT]
                obtain ⟨ha, hb⟩ := prompts_no_submit
                  (prompts_append (prompts_append (prompts_append hm1 hd1) hc1) ha1)
                exact ⟨ha, fun _ => hb⟩
              · have hb5 := buildKeychain_trace kn o
                rcases hbk : buildKeychain kn o with ⟨rb, t5⟩
                rw [hbk] at hb5
                subst hb5
                rcases rb with e | kcA
                · left
                  have hT : (transferF f o).snd = t1 ++ t2 ++ t3 ++ t4 ++ [] := by
                    simp [transferF, h1, h2, hn, hm, hd, hcr, ham, hbk]
                  rw [hT]
                  obtain ⟨ha, hb⟩ := prompts_no_submit
                    (prompts_append (prompts_append (prompts_append
                      (prompts_append hm1 hd1) hc1) ha1)
                      (fun x hx => absurd hx (List.not_mem_nil x)))
                  exact ⟨ha, fun _ => hb⟩
                · have hr1 := resolveReceiver_events isS pt f kcA o
                  rcases hrr : resolveReceiver isS pt f kcA o with ⟨rr, t6⟩
                  rw [hrr] at hr1
                  have hall : ∀ x ∈ t1 ++ t2 ++ t3 ++ t4 ++ [] ++ t6,
                      ∃ p, x = Event.prompted p :=
                    prompts_append (prompts_append (prompts_append (prompts_append
                      (prompts_append hm1 hd1) hc1) ha1)
                      (fun x hx => absurd hx (List.not_mem_nil x))) hr1
                  rcases rr with e | recvA
                  · left
                    have hT : (transferF f o).snd = t1 ++ t2 ++ t3 ++ t4 ++ [] ++ t6 := by
                      simp [transferF, h1, h2, hn, hm, hd, hcr, ham, hbk, hrr]
                    rw [hT]
                    obtain ⟨ha, hb⟩ := prompts_no_submit hall
                    exact ⟨ha, fun _ => hb⟩
                  · have hs7 := fun y hy => summaryAndConfirm_mem isS pt px f.force
                      (amountToUnits aq) fee kcA recvA o y hy
                    rcases hsc : summaryAndConfirm isS pt px f.force
                        (amountToUnits aq) fee kcA recvA o with ⟨rs, t7⟩
                    rw [hsc] at hs7
                    have h7sub : ∀ x ∈ t7, isSubmit x = false := by
                      intro x hx
                      rcases hs7 x hx with h | h | h | h <;> subst h <;> rfl
                    have h7force : f.force = true → Event.confirmAsked ∉ t7 := by
                      intro hft
                      have := summaryAndConfirm_force_no_confirm isS pt px
                        (amountToUnits aq) fee kcA recvA o
                      rw [hft] at hsc
                      rw [hsc] at this
                      exact this
                    have hT6sub : ∀ x ∈ t1 ++ t2 ++ t3 ++ t4 ++ [] ++ t6,
                        isSubmit x = false := (prompts_no_submit hall).1
                    have hT6conf : Event.confirmAsked ∉ t1 ++ t2 ++ t3 ++ t4 ++ [] ++ t6 :=
                      (prompts_no_submit hall).2
                    rcases rs with e | bs
                    · left
                      have hT : (transferF f o).snd =
                          t1 ++ t2 ++ t3 ++ t4 ++ [] ++ t6 ++ t7 := by
                        simp [transferF, h1, h2, hn, hm, hd, hcr, ham, hbk, hrr, hsc]
                      rw [hT]
                      constructor
                      · intro x hx
                        rcases List.mem_append.mp hx with h | h
                        exacts [hT6sub x h, h7sub x h]
                      · intro hft hc
                        rcases List.mem_append.mp hc with h | h
                        exacts [hT6conf h, h7force hft h]
                    · cases bs
                      · left
                        have hT : (transferF f o).snd =
                            t1 ++ t2 ++ t3 ++ t4 ++ [] ++ t6 ++ t7 := by
                          simp [transferF, h1, h2, hn, hm, hd, hcr, ham, hbk, hrr, hsc]
                        rw [hT]
                        constructor
                        · intro x hx
                          rcases List.mem_append.mp hx with h | h
                          exacts [hT6sub x h, h7sub x h]
                        · intro hft
                          exfalso
                          have := summaryAndConfirm_force_not_declined isS pt px
                            (amountToUnits aq) fee kcA recvA o
                          rw [hft] at hsc
                          rw [hsc] at this
                          exact this rfl
                      · rcases hE : (if isS = true then
                            sendExec px (amountToUnits aq) fee recvA o
                          else recvExec f.receiveRecoveryStep px (amountToUnits aq)
                            fee recvA o) with ⟨r8, t8⟩
                        have h8conf : Event.confirmAsked ∉ t8 := by
                          cases isS
                          · simp only [Bool.false_eq_true, if_false] at hE
                            have := recvExec_no_confirm f.receiveRecoveryStep px
                              (amountToUnits aq) fee recvA o
                            rw [hE] at this; exact this
                          · simp only [if_true] at hE
                            have := sendExec_no_confirm px (amountToUnits aq) fee recvA o
                            rw [hE] at this; exact this
                        have hT : (transferF f o).snd =
                            (t1 ++ t2 ++ t3 ++ t4 ++ [] ++ t6 ++ t7) ++ t8 := by
                          simp [transferF, h1, h2, hn, hm, hd, hcr, ham, hbk, hrr, hsc, hE]
                        right
                        by_cases hf : f.force = true
                        · refine ⟨Or.inl hf, t1 ++ t2 ++ t3 ++ t4 ++ [] ++ t6 ++ t7, t8,
                            hT, ?_, h8conf, ?_, ?_⟩
                          · intro x hx
                            rcases List.mem_append.mp hx with h | h
                            exacts [hT6sub x h, h7sub x h]
                          · intro _ hc
                            rcases List.mem_append.mp hc with h | h
                            exacts [hT6conf h, h7force hf h]
                          · intro hfo; rw [hf] at hfo; cases hfo
                        · have hfo : f.force = false := by
                            cases hff : f.force
                            · rfl
                            · exact absurd hff hf
                          have hok := summaryAndConfirm_ok_true isS pt px f.force
                            (amountToUnits aq) fee kcA recvA o (by rw [hsc]) hfo
                          obtain ⟨hconf, t1g, ht7, hnt1g⟩ := hok
                          rw [hsc] at ht7
                          dsimp only at ht7
                          refine ⟨Or.inr hconf, t1 ++ t2 ++ t3 ++ t4 ++ [] ++ t6 ++ t7, t8,
                            hT, ?_, h8conf, ?_, ?_⟩
                          · intro x hx
                            rcases List.mem_append.mp hx with h | h
                            exacts [hT6sub x h, h7sub x h]
                          · intro hft; exact absurd hft hf
                          · intro _
                            refine ⟨t1 ++ t2 ++ t3 ++ t4 ++ [] ++ t6 ++ t1g, ?_, ?_⟩
                            · rw [ht7]; simp
                            · intro hc
                              rcases List.mem_append.mp hc with h | h
                              exacts [hT6conf h, hnt1g h]

/-- C8: without the force flag, whenever any operation is submitted the
confirmation prompt was asked exactly once, before every submission; a
declined confirmation means nothing is ever submitted; with the force flag
the prompt is never asked. -/
theorem confirm_gate (f : Flags) (o : Oracle) :
    (f.force = true → Event.confirmAsked ∉ (transferF f o).snd) ∧
    (f.force = false → (∃ x ∈ (transferF f o).snd, isSubmit x = true) →
      ∃ t1 t2, (transferF f o).snd = t1 ++ Event.confirmAsked :: t2 ∧
        (∀ x ∈ t1, isSubmit x = false) ∧
        (transferF f o).snd.count Event.confirmAsked = 1) ∧
    (f.force = false → o.confirm = Except.ok false →
      ∀ x ∈ (transferF f o).snd, isSubmit x = false) := by
  rcases transferF_shape f o with ⟨hns, hfc⟩ |
    ⟨hgate, t0, t8, hT, hns0, hc8, hfc0, hsplit⟩
  · refine ⟨hfc, ?_, ?_⟩
    · rintro hfo ⟨x, hx, hsub⟩
      rw [hns x hx] at hsub; cases hsub
    · intro _ _ x hx; exact hns x hx
  · refine ⟨?_, ?_, ?_⟩
    · intro hft
      rw [hT]; intro hc
      rcases List.mem_append.mp hc with h | h
      exacts [hfc0 hft h, hc8 h]
    · rintro hfo hsub
      obtain ⟨t1, ht0, hnt1⟩ := hsplit hfo
      refine ⟨t1, t8, ?_, ?_, ?_⟩
      · rw [hT, ht0]; simp
      · intro x hx
        exact hns0 x (by rw [ht0]; exact List.mem_append_left _ hx)
      · rw [hT, ht0]
        rw [List.count_append, List.count_append]
        have hz1 : t1.count Event.confirmAsked = 0 := List.count_eq_zero.mpr hnt1
        have hz8 : t8.count Event.confirmAsked = 0 := List.count_eq_zero.mpr hc8
        simp [hz1, hz8]
    · intro hfo hcf
      rcases hgate with hft | hct
      · rw [hft] at hfo; cases hfo
      · rw [hct] at hcf; simp at hcf

/-- C8 witness: the §8 scenario run (no force flag) — the theorem applied
at a configuration that does submit an operation. -/
theorem confirm_gate_witness :
    (scenarioFlags.force = true →
      Event.confirmAsked ∉ (transferF scenarioFlags allOkOracle).snd) ∧
    (scenarioFlags.force = false →
      (∃ x ∈ (transferF scenarioFlags allOkOracle).snd, isSubmit x = true) →
      ∃ t1 t2, (transferF scenarioFlags allOkOracle).snd =
          t1 ++ Event.confirmAsked :: t2 ∧
        (∀ x ∈ t1, isSubmit x = false) ∧
        (transferF scenarioFlags allOkOracle).snd.count Event.confirmAsked = 1) ∧
    (scenarioFlags.force = false → allOkOracle.confirm = Except.ok false →
      ∀ x ∈ (transferF scenarioFlags allOkOracle).snd, isSubmit x = false) :=
  confirm_gate scenarioFlags allOkOracle

theorem resolveMode_kind (f : Flags) (o : Oracle) :
    ∀ x ∈ (resolveMode f o).snd, x = Event.prompted PromptKind.stepChoice := by
  intro x hx
  by_cases h : f.send = false ∧ f.receive = false
  · rcases hs : o.stepIsSend with e | b <;> simp [resolveMode, h, hs] at hx <;>
      exact hx
  · simp [resolveMode, h] at hx

theorem resolveDest_kind (f : Flags) (o : Oracle) :
    ∀ x ∈ (resolveDest f o).snd, x = Event.prompted PromptKind.destChoice := by
  intro x hx
  by_cases h : f.PToP = false ∧ f.PToX = false
  · rcases hd : o.destIsP with e | b
    · simp [resolveDest, h, hd] at hx; exact hx
    · cases b <;> simp [resolveDest, h, hd] at hx <;> exact hx
  · simp [resolveDest, h] at hx

theorem resolveCreds_kind (f : Flags) (o : Oracle) :
    ∀ x ∈ (resolveCreds f o).snd,
      x = Event.prompted PromptKind.keyOrLedger ∨
      x = Event.prompted PromptKind.ledgerIdx := by
  intro x hx
  by_cases h : f.keyName = "" ∧ f.ledgerIndex = wrongLedgerIndexVal
  · rcases hkl : o.keyOrLedger with e | ⟨ul, kn⟩
    · simp [resolveCreds, h, hkl] at hx; exact Or.inl hx
    · cases ul
      · simp [resolveCreds, h, hkl] at hx; exact Or.inl hx
      · rcases hli : o.ledgerIdx with e | idx <;>
          simp [resolveCreds, h, hkl, hli] at hx <;> tauto
  · simp [resolveCreds, h] at hx

theorem resolveAmount_kind (f : Flags) (o : Oracle) :
    ∀ x ∈ (resolveAmount f o).snd, x = Event.prompted PromptKind.amountAsk := by
  intro x hx
  by_cases h : f.amountFlt = 0
  · rcases hc : o.amountCap with e | v
    · simp [resolveAmount, h, hc] at hx; exact hx
    · by_cases hv : v ≤ 0 <;> simp [resolveAmount, h, hc, hv] at hx <;> exact hx
  · simp [resolveAmount, h] at hx

theorem buildKeychain_addr (kn : String) (o : Oracle) (a : Addr) (t : List Event)
    (h : buildKeychain kn o = (Except.ok a, t)) : a = o.kcAddr := by
  by_cases hk : kn = ""
  · rcases hn : o.ledgerNew with _ | e
    · rcases hk2 : o.ledgerKc with _ | e
      · simp [buildKeychain, hk, hn, hk2] at h; exact h.1.symm
      · simp [buildKeychain, hk, hn, hk2] at h
    · simp [buildKeychain, hk, hn] at h
  · rcases hl : o.keyLoad with _ | e
    · simp [buildKeychain, hk, hl] at h; exact h.1.symm
    · simp [buildKeychain, hk, hl] at h

theorem resolveReceiver_recv_addr (pt : Bool) (f : Flags) (kc a : Addr)
    (o : Oracle) (t : List Event)
    (h : resolveReceiver false pt f kc o = (Except.ok a, t)) :
    a = kc ∧ t = [] := by
  rcases hf2 : o.fmtAddr kc with _ | s <;> simp [resolveReceiver, hf2] at h
  exact ⟨h.1.symm, h.2⟩

/-- Event discipline of the receive path: no receiver-address prompt, every
submission targets `dst`, and no send-path export occurs. -/
def recvModeEv (dst : Addr) (x : Event) : Prop :=
  x ≠ Event.prompted PromptKind.recvAddrP ∧
  x ≠ Event.prompted PromptKind.recvAddrX ∧
  (∀ c am d2, x = Event.stepSubmit c am d2 → d2 = dst) ∧
  (∀ am d2, x ≠ Event.sendExport am d2)

theorem recvModeEv_run (dst : Addr) (c : Nat) : recvModeEv dst (Event.stepRun c) := by
  simp [recvModeEv]

theorem recvModeEv_wallet (dst : Addr) (c : Option Nat) :
    recvModeEv dst (Event.mkWallet c) := by
  simp [recvModeEv]

theorem recvModeEv_resume (dst : Addr) (c : Nat) :
    recvModeEv dst (Event.resumeAt c) := by
  simp [recvModeEv]

theorem recvModeEv_submit (dst : Addr) (c : Nat) (am : Option Nat) :
    recvModeEv dst (Event.stepSubmit c am dst) := by
  refine ⟨by simp, by simp, ?_, by simp⟩
  intro c2 am2 d2 h
  injection h with h1 h2 h3
  exact h3.symm

theorem recvModeEv_promptOther (dst : Addr) (k : PromptKind)
    (h1 : k ≠ PromptKind.recvAddrP) (h2 : k ≠ PromptKind.recvAddrX) :
    recvModeEv dst (Event.prompted k) := by
  refine ⟨by simp [h1], by simp [h2], by simp, by simp⟩

theorem recvBlock2_events (dst : Addr) (o : Oracle) :
    ∀ x ∈ (recvBlock2 dst o).snd, recvModeEv dst x := by
  intro x hx
  rcases h1 : o.recvWallet 2 with _ | e1
  · rcases h2 : o.recvPXImport with _ | e2
    · simp [recvBlock2, h1, h2] at hx
      rcases hx with rfl | rfl | rfl
      exacts [recvModeEv_run dst 2, recvModeEv_wallet dst (some 2),
        recvModeEv_submit dst 2 none]
    · simp [recvBlock2, h1, h2] at hx
      rcases hx with rfl | rfl | rfl | rfl
      exacts [recvModeEv_run dst 2, recvModeEv_wallet dst (some 2),
        recvModeEv_submit dst 2 none, recvModeEv_resume dst 2]
  · simp [recvBlock2, h1] at hx
    rcases hx with rfl | rfl | rfl
    exacts [recvModeEv_run dst 2, recvModeEv_wallet dst (some 2),
      recvModeEv_resume dst 2]

theorem recvBlock1_events (A fee : Nat) (dst : Addr) (o : Oracle) :
    ∀ x ∈ (recvBlock1 A fee dst o).snd, recvModeEv dst x := by
  intro x hx
  have hb2 := recvBlock2_events dst o
  rcases hB : recvBlock2 dst o with ⟨r2, t2⟩
  rw [hB] at hb2
  rcases h1 : o.recvWallet 1 with _ | e1
  · rcases h2 : o.recvXPExport with _ | e2
    · simp [recvBlock1, h1, h2, hB] at hx
      rcases hx with rfl | rfl | rfl | hx
      · exact recvModeEv_run dst 1
      · exact recvModeEv_wallet dst (some 1)
      · exact recvModeEv_submit dst 1 _
      · exact hb2 x hx
    · simp [recvBlock1, h1, h2] at hx
      rcases hx with rfl | rfl | rfl | rfl
      exacts [recvModeEv_run dst 1, recvModeEv_wallet dst (some 1),
        recvModeEv_submit dst 1 _, recvModeEv_resume dst 1]
  · simp [recvBlock1, h1] at hx
    rcases hx with rfl | rfl | rfl
    exacts [recvModeEv_run dst 1, recvModeEv_wallet dst (some 1),
      recvModeEv_resume dst 1]

theorem recvBlock0_events (px : Bool) (A fee : Nat) (dst : Addr) (o : Oracle) :
    ∀ x ∈ (recvBlock0 px A fee dst o).snd, recvModeEv dst x := by
  intro x hx
  have hb1 := recvBlock1_events A fee dst o
  rcases hB : recvBlock1 A fee dst o with ⟨r1, t1⟩
  rw [hB] at hb1
  rcases h1 : o.recvWallet 0 with _ | e1
  · rcases h2 : o.recvBuild0 with _ | e2
    · rcases h3 : o.recvSign0 with _ | e3
      · rcases h4 : o.recvIssue0 with _ | e4
        · cases px
          · simp [recvBlock0, h1, h2, h3, h4, hB] at hx
            rcases hx with rfl | rfl | rfl | hx
            · exact recvModeEv_run dst 0
            · exact recvModeEv_wallet dst (some 0)
            · exact recvModeEv_submit dst 0 none
            · exact hb1 x hx
          · simp [recvBlock0, h1, h2, h3, h4] at hx
            rcases hx with rfl | rfl | rfl
            exacts [recvModeEv_run dst 0, recvModeEv_wallet dst (some 0),
              recvModeEv_submit dst 0 none]
        · simp [recvBlock0, h1, h2, h3, h4] at hx
          rcases hx with rfl | rfl | rfl | rfl
          exacts [recvModeEv_run dst 0, recvModeEv_wallet dst (some 0),
            recvModeEv_submit dst 0 none, recvModeEv_resume dst 0]
      · simp [recvBlock0, h1, h2, h3] at hx
        rcases hx with rfl | rfl | rfl
        exacts [recvModeEv_run dst 0, recvModeEv_wallet dst (some 0),
          recvModeEv_resume dst 0]
    · simp [recvBlock0, h1, h2] at hx
      rcases hx with rfl | rfl | rfl
      exacts [recvModeEv_run dst 0, recvModeEv_wallet dst (some 0),
        recvModeEv_resume dst 0]
  · simp [recvBlock0, h1] at hx
    rcases hx with rfl | rfl | rfl
    exacts [recvModeEv_run dst 0, recvModeEv_wallet dst (some 0),
      recvModeEv_resume dst 0]

theorem recvExec_events (c : Nat) (px : Bool) (A fee : Nat) (dst : Addr)
    (o : Oracle) : ∀ x ∈ (recvExec c px A fee dst o).snd, recvModeEv dst x := by
  intro x hx
  unfold recvExec at hx
  by_cases h0 : c = 0
  · rw [if_pos h0] at hx; exact recvBlock0_events px A fee dst o x hx
  · rw [if_neg h0] at hx
    by_cases hc1 : c = 1
    · rw [if_pos hc1] at hx; exact recvBlock1_events A fee dst o x hx
    · rw [if_neg hc1] at hx
      by_cases hc2 : c = 2
      · rw [if_pos hc2] at hx; exact recvBlock2_events dst o x hx
      · rw [if_neg hc2] at hx; simp at hx

/-- C10: in receive mode the externally supplied target-address argument is
never consulted — the whole run is unchanged under any value of that
argument — the receiver-address prompt is never issued, every built
operation targets the invoker's own first keychain address, and no
send-path export occurs.  (The address prompt and argument are used only in
send mode.) -/
theorem receive_ignores_target_addr (f : Flags) (o : Oracle)
    (hrecv : f.receive = true) :
    (∀ s, transferF { f with receiverAddrStr := s } o = transferF f o) ∧
    (f.send = false →
      Event.prompted PromptKind.recvAddrP ∉ (transferF f o).snd ∧
      Event.prompted PromptKind.recvAddrX ∉ (transferF f o).snd ∧
      (∀ c am dst, Event.stepSubmit c am dst ∈ (transferF f o).snd →
        dst = o.kcAddr) ∧
      (∀ am dst, Event.sendExport am dst ∉ (transferF f o).snd)) := by
  constructor
  · intro s
    cases hs : f.send
    · obtain ⟨fs, fr, fk, fl, ff, fa, fq, fc, fx, fp⟩ := f
      simp only at hs hrecv
      subst hs; subst hrecv
      simp [transferF, resolveMode, resolveDest, resolveCreds,
        resolveAmount, buildKeychain, resolveReceiver, summaryAndConfirm]
    · simp [transferF, hs, hrecv]
  · intro hsend
    suffices hP : ∀ x ∈ (transferF f o).snd, recvModeEv o.kcAddr x by
      refine ⟨fun hc => absurd rfl (hP _ hc).1,
        fun hc => absurd rfl (hP _ hc).2.1,
        fun c am dst hmem => (hP _ hmem).2.2.1 c am dst rfl,
        fun am dst hmem => absurd rfl ((hP _ hmem).2.2.2 am dst)⟩
    intro x hx
    have h1 : ¬ (f.send = true ∧ f.receive = true) := by simp [hsend]
    have hm : resolveMode f o = (Except.ok false, []) := by
      simp [resolveMode, hsend, hrecv]
    by_cases h2 : ¬ f.keyName = "" ∧ ¬ f.ledgerIndex = wrongLedgerIndexVal
    · have hT : (transferF f o).snd = [] := by simp [transferF, h1, h2]
      rw [hT] at hx; cases hx
    · rcases hn : o.network with e | fee
      · have hT : (transferF f o).snd = [] := by simp [transferF, h1, h2, hn]
        rw [hT] at hx; cases hx
      · have hd1 := resolveDest_kind f o
        rcases hd : resolveDest f o with ⟨rd, t2⟩
        rw [hd] at hd1
        have hmem2 : ∀ y ∈ t2, recvModeEv o.kcAddr y := by
          intro y hy; rw [hd1 y hy]
          exact recvModeEv_promptOther o.kcAddr _ (by simp) (by simp)
        rcases rd with e | ⟨pt, px⟩
        · have hT : (transferF f o).snd = t2 := by
            simp [transferF, h1, h2, hn, hm, hd]
          rw [hT] at hx; exact hmem2 x hx
        · have hc1 := resolveCreds_kind f o
          rcases hcr : resolveCreds f o with ⟨rc, t3⟩
          rw [hcr] at hc1
          have hmem3 : ∀ y ∈ t3, recvModeEv o.kcAddr y := by
            intro y hy
            rcases hc1 y hy with h | h <;> rw [h] <;>
              exact recvModeEv_promptOther o.kcAddr _ (by simp) (by simp)
          rcases rc with e | ⟨kn, li⟩
          · have hT : (transferF f o).snd = t2 ++ t3 := by
              simp [transferF, h1, h2, hn, hm, hd, hcr]
            rw [hT] at hx
            rcases List.mem_append.mp hx with hx | hx
            exacts [hmem2 x hx, hmem3 x hx]
          · have ha1 := resolveAmount_kind f o
            rcases ham : resolveAmount f o with ⟨ra, t4⟩
            rw [ham] at ha1
            have hmem4 : ∀ y ∈ t4, recvModeEv o.kcAddr y := by
              intro y hy; rw [ha1 y hy]
              exact recvModeEv_promptOther o.kcAddr _ (by simp) (by simp)
            rcases ra with e | aq
            · have hT : (transferF f o).snd = t2 ++ (t3 ++ t4) := by
                simp [transferF, h1, h2, hn, hm, hd, hcr, ham]
              rw [hT] at hx
              rcases List.mem_append.mp hx with hx | hx
              · exact hmem2 x hx
              · rcases List.mem_append.mp hx with hx | hx
                exacts [hmem3 x hx, hmem4 x hx]
            · have hb5 := buildKeychain_trace kn o
              rcases hbk : buildKeychain kn o with ⟨rb, t5⟩
              rw [hbk] at hb5
              subst hb5
              rcases rb with e | kcA
              · have hT : (transferF f o).snd = t2 ++ (t3 ++ t4) := by
                  simp [transferF, h1, h2, hn, hm, hd, hcr, ham, hbk]
                rw [hT] at hx
                rcases List.mem_append.mp hx with hx | hx
                · exact hmem2 x hx
                · rcases List.mem_append.mp hx with hx | hx
                  exacts [hmem3 x hx, hmem4 x hx]
              · have hkca : kcA = o.kcAddr := buildKeychain_addr kn o kcA [] hbk
                rcases hrr : resolveReceiver false pt f kcA o with ⟨rr, t6⟩
                rcases rr with e | recvA
                · have ht6 : t6 = [] := by
                    rcases hf2 : o.fmtAddr kcA with _ | s2 <;>
                      simp [resolveReceiver, hf2] at hrr
                    exact hrr.2
                  subst ht6
                  have hT : (transferF f o).snd = t2 ++ (t3 ++ t4) := by
                    simp [transferF, h1, h2, hn, hm, hd, hcr, ham, hbk, hrr]
                  rw [hT] at hx
                  rcases List.mem_append.mp hx with hx | hx
                  · exact hmem2 x hx
                  · rcases List.mem_append.mp hx with hx | hx
                    exacts [hmem3 x hx, hmem4 x hx]
                · obtain ⟨hra, ht6⟩ :=
                    resolveReceiver_recv_addr pt f kcA recvA o t6 hrr
                  subst ht6
                  have hro : recvA = o.kcAddr := hra.trans hkca
                  have hs7 := fun y hy => summaryAndConfirm_mem false pt px f.force
                    (amountToUnits aq) fee kcA recvA o y hy
                  rcases hsc : summaryAndConfirm false pt px f.force
                      (amountToUnits aq) fee kcA recvA o with ⟨rs, t7⟩
                  rw [hsc] at hs7
                  have hmem7 : ∀ y ∈ t7, recvModeEv o.kcAddr y := by
                    intro y hy
                    rcases hs7 y hy with h | h | h | h <;> rw [h] <;>
                      simp [recvModeEv]
                  rcases rs with e | bs
                  · have hT : (transferF f o).snd = t2 ++ (t3 ++ (t4 ++ t7)) := by
                      simp [transferF, h1, h2, hn, hm, hd, hcr, ham, hbk, hrr, hsc]
                    rw [hT] at hx
                    rcases List.mem_append.mp hx with hx | hx
                    · exact hmem2 x hx
                    · rcases List.mem_append.mp hx with hx | hx
                      · exact hmem3 x hx
                      · rcases List.mem_append.mp hx with hx | hx
                        exacts [hmem4 x hx, hmem7 x hx]
                  · cases bs
                    · have hT : (transferF f o).snd = t2 ++ (t3 ++ (t4 ++ t7)) := by
                        simp [transferF, h1, h2, hn, hm, hd, hcr, ham, hbk, hrr, hsc]
                      rw [hT] at hx
                      rcases List.mem_append.mp hx with hx | hx
                      · exact hmem2 x hx
                      · rcases List.mem_append.mp hx with hx | hx
                        · exact hmem3 x hx
                        · rcases List.mem_append.mp hx with hx | hx
                          exacts [hmem4 x hx, hmem7 x hx]
                    · have h8 := recvExec_events f.receiveRecoveryStep px
                        (amountToUnits aq) fee recvA o
                      rcases hE : recvExec f.receiveRecoveryStep px
                          (amountToUnits aq) fee recvA o with ⟨r8, t8⟩
                      rw [hE] at h8
                      have hmem8 : ∀ y ∈ t8, recvModeEv o.kcAddr y := by
                        intro y hy
                        have := h8 y hy
                        rw [hro] at this
                        exact this
                      have hT : (transferF f o).snd =
                          t2 ++ (t3 ++ (t4 ++ (t7 ++ t8))) := by
                        simp [transferF, h1, h2, hn, hm, hd, hcr, ham, hbk, hrr,
                          hsc, hE]
                      rw [hT] at hx
                      rcases List.mem_append.mp hx with hx | hx
                      · exact hmem2 x hx
                      · rcases List.mem_append.mp hx with hx | hx
                        · exact hmem3 x hx
                        · rcases List.mem_append.mp hx with hx | hx
                          · exact hmem4 x hx
                          · rcases List.mem_append.mp hx with hx | hx
                            exacts [hmem7 x hx, hmem8 x hx]

/-- C10 witness: the cursor-1 receive invocation is unchanged under any
target-address argument, issues no receiver-address prompt, and every
submission targets the keychain's own address. -/
theorem receive_ignores_target_addr_witness :
    (∀ s, transferF { recvFlags with receiverAddrStr := s } allOkOracle =
      transferF recvFlags allOkOracle) ∧
    (recvFlags.send = false →
      Event.prompted PromptKind.recvAddrP ∉ (transferF recvFlags allOkOracle).snd ∧
      Event.prompted PromptKind.recvAddrX ∉ (transferF recvFlags allOkOracle).snd ∧
      (∀ c am dst, Event.stepSubmit c am dst ∈ (transferF recvFlags allOkOracle).snd →
        dst = allOkOracle.kcAddr) ∧
      (∀ am dst, Event.sendExport am dst ∉ (transferF recvFlags allOkOracle).snd)) :=
  receive_ignores_target_addr recvFlags allOkOracle rfl

end CryftTransfer
